import Mathlib

/-!
Shallow embedding of the MAP quadrant report data pipeline:
the build-time deduplication (`deduplicateTermData` in the CSV build script),
the derivation engine (`safeParseFloat`, `calculateDerivedValues`, `processData`
in `dataTransforms.js`), the term/period resolver (`termUtils.js`), the norms
lookup (`normsLookup.js`), the filter engine (`filterData`), the quadrant logic
(`quadrantLogic.js`) and the data-table display formatting (`DataTable.jsx`).

JavaScript numbers are modelled as exact rationals (the CSV numeric fields are
short decimal literals, for which IEEE-754 comparison agrees with rational
comparison); absent / failed parses (`NaN`, `null`, `undefined`) are modelled
with `Option`.
-/

namespace MapQuadrants

/-- JS `Math.round`: round half away from zero towards `+∞`, i.e. `⌊x + 1/2⌋`. -/
def mathRound (q : ℚ) : ℤ := ⌊q + 1/2⌋

/-- A JS field value as it occurs in a parsed CSV/JSON row: a string, `null`,
or `undefined` (missing key). -/
inductive JSVal where
  | vstr (s : String)
  | vnull
  | vundefined
deriving DecidableEq

/-- Read a maximal run of decimal digits: accumulated value, digit count,
and remaining characters. -/
def readDigits : List Char → ℕ → ℕ → ℕ × ℕ × List Char
  | [], acc, cnt => (acc, cnt, [])
  | c :: rest, acc, cnt =>
    if c.isDigit then readDigits rest (10 * acc + (c.toNat - 48)) (cnt + 1)
    else (acc, cnt, c :: rest)

/-- Read an optional leading sign; returns whether the value is negated. -/
def readSign : List Char → Bool × List Char
  | '-' :: rest => (true, rest)
  | '+' :: rest => (false, rest)
  | l => (false, l)

/-- JS `parseFloat` on a string, restricted to plain decimal literals
(optional whitespace, optional sign, digits with an optional fraction);
the CSV numeric fields are exactly of this shape.  `none` models `NaN`
(no digits at all); a longer non-numeric suffix is ignored as in JS. -/
def parseFloat (s : String) : Option ℚ :=
  let l := s.toList.dropWhile (fun c => c.isWhitespace)
  let sr := readSign l
  let ir := readDigits sr.2 0 0
  let fr :=
    match ir.2.2 with
    | '.' :: rest => readDigits rest 0 0
    | _ => (0, 0, ir.2.2)
  if ir.2.1 = 0 ∧ fr.2.1 = 0 then none
  else
    let mag : ℚ := (ir.1 : ℚ) + (fr.1 : ℚ) / ((10 : ℚ) ^ fr.2.1)
    some (if sr.1 then -mag else mag)

/-- JS `parseFloat` applied to a possibly `null`/`undefined` field
(`parseFloat(null)` and `parseFloat(undefined)` are `NaN`). -/
def parseFloatV : JSVal → Option ℚ
  | .vstr s => parseFloat s
  | .vnull => none
  | .vundefined => none

/-- JS `parseInt(s, 10)`, restricted likewise to decimal prefixes:
optional whitespace, optional sign, at least one digit; `none` models `NaN`. -/
def parseInt (s : String) : Option ℤ :=
  let l := s.toList.dropWhile (fun c => c.isWhitespace)
  let sr := readSign l
  let ir := readDigits sr.2 0 0
  if ir.2.1 = 0 then none
  else some (if sr.1 then -(ir.1 : ℤ) else (ir.1 : ℤ))

/-- Function `safeParseFloat` from `dataTransforms.js`: empty string / `null` /
`undefined` ⇒ `null`; otherwise `parseFloat`, with `NaN` ⇒ `null`. -/
def safeParseFloat : JSVal → Option ℚ
  | .vstr "" => none
  | .vnull => none
  | .vundefined => none
  | .vstr s => parseFloat s

/-- JS `x || d` for a possibly-missing number: `null`/`undefined`/`NaN`/`0`
are falsy and give the default. -/
def jsOrDefault (v : Option ℚ) (d : ℚ) : ℚ :=
  match v with
  | some x => if x = 0 then d else x
  | none => d

/-- A roster row as parsed from the CSV export / JSON slice.  Plain identity
columns are strings (csv-parse yields strings, absent cells are `""`); numeric
columns are kept as `JSVal` so that the string/`null`/`undefined` distinctions
of `safeParseFloat` are preserved.  The six per-growth-period column groups
(`{period}observedgrowth`, ...) are modelled as functions from the period
prefix to the stored value, mirroring the dynamic key access
`row[growthPeriod + 'observedgrowth']`. -/
structure SRow where
  studentid : String
  subject : String
  course : String
  grade : String
  termname : String
  schoolname : String
  districtname : String
  studentgender : String
  studentethnicgroup : String
  studentlastname : String
  studentfirstname : String
  teststartdate : String
  testritscore : JSVal
  teststandarderror : JSVal
  testpercentile : JSVal
  growthmeasureyn : String
  observedgrowth : String → JSVal
  projectedgrowth : String → JSVal
  observedgrowthse : String → JSVal
  metprojectedgrowth : String → String
  conditionalgrowthindex : String → JSVal
  conditionalgrowthpercentile : String → JSVal
  growthquintile : String → String

/-- The grouping key `${row.studentid}|${row.subject}` used by deduplication
and the prior-term lookup. -/
def dedupKey (r : SRow) : String := r.studentid ++ "|" ++ r.subject

/-- The expression `parseFloat(curr.teststandarderror) || 999` from `deduplicateTermData`:
`NaN` (absent or unparseable) and `0` are falsy, so both become `999`. -/
def effSE (r : SRow) : ℚ := jsOrDefault (parseFloatV r.teststandarderror) 999

/-- The expression `parseFloat(curr.testritscore) || 0` from `deduplicateTermData`. -/
def effRIT (r : SRow) : ℚ := jsOrDefault (parseFloatV r.testritscore) 0

/-- One step of the `group.reduce((best, curr) => ...)` in
`deduplicateTermData`: lowest effective SE, then most recent
`teststartdate` (plain string comparison), then highest RIT;
the earlier record is kept on a complete tie. -/
def dedupStep (best curr : SRow) : SRow :=
  if effSE curr < effSE best then curr
  else if effSE best < effSE curr then best
  else if best.teststartdate < curr.teststartdate then curr
  else if curr.teststartdate < best.teststartdate then best
  else if effRIT best < effRIT curr then curr
  else best

/-- Grouping rows by a string key, preserving the first-occurrence order of
keys and the input order inside each group.  This mirrors building a JS object
`groups[key].push(row)` and then taking `Object.values(groups)` (string keys
enumerate in insertion order).  The `fuel` argument keeps the recursion
structural; it is always called with `fuel = rows.length`. -/
def groupByKeyAux (key : SRow → String) : ℕ → List SRow → List (String × List SRow)
  | 0, _ => []
  | _, [] => []
  | fuel + 1, r :: rest =>
    (key r, r :: rest.filter (fun x => key x == key r)) ::
      groupByKeyAux key fuel (rest.filter (fun x => !(key x == key r)))

/-- Insertion-ordered grouping of rows by key (see `groupByKeyAux`). -/
def groupByKey (key : SRow → String) (rows : List SRow) : List (String × List SRow) :=
  groupByKeyAux key rows.length rows

/-- The call `group.reduce(...)` over a nonempty group; JS `reduce` with no initial
value starts from the first element (and throws on an empty array, which
cannot happen here since groups are nonempty). -/
def pickBest : List SRow → Option SRow
  | [] => none
  | r :: rest => some (rest.foldl dedupStep r)

/-- Function `deduplicateTermData` from the build script: if any row of the term has
`growthmeasureyn === 'true'`, keep exactly the flagged rows; otherwise group
by `studentid|subject` and reduce each group by `dedupStep`. -/
def deduplicateTermData (rows : List SRow) : List SRow :=
  if rows.any (fun r => r.growthmeasureyn == "true") then
    rows.filter (fun r => r.growthmeasureyn == "true")
  else
    (groupByKey dedupKey rows).filterMap (fun kg => pickBest kg.2)

/-- Filter criteria for `filterData`; `none` models an absent (`undefined`)
field, `some l` an array value (possibly empty). -/
structure FilterCriteria where
  termname : Option String := none
  schoolname : Option String := none
  districtname : Option String := none
  grades : Option (List String) := none
  subjects : Option (List String) := none
  genders : Option (List String) := none
  ethnicities : Option (List String) := none

/-- The guard `if (filters.f && row.f !== filters.f) return false` for a scalar
criterion: an absent or empty-string (falsy) criterion applies no filter. -/
def scalarOk (crit : Option String) (v : String) : Bool :=
  match crit with
  | some t => if t = "" then true else v == t
  | none => true

/-- The guard `if (filters.grades && filters.grades.length > 0) ...`: an empty `grades`
array applies no filter. -/
def gradesOk (crit : Option (List String)) (v : String) : Bool :=
  match crit with
  | some l => if 0 < l.length then l.contains v else true
  | none => true

/-- The guard that drops a row when an array criterion is present and the
row value is not included (`Array.isArray(filters.xs)` check): the criterion is active whenever it is an array at all, and
an empty array excludes every record. -/
def activeListOk (crit : Option (List String)) (v : String) : Bool :=
  match crit with
  | some l => if l.length = 0 then false else l.contains v
  | none => true

/-- Function `filterData` from `dataTransforms.js` (current version, with active-empty
semantics for subjects/genders/ethnicities). -/
def filterData (data : List SRow) (filters : FilterCriteria) : List SRow :=
  data.filter (fun row =>
    scalarOk filters.termname row.termname &&
    scalarOk filters.schoolname row.schoolname &&
    scalarOk filters.districtname row.districtname &&
    gradesOk filters.grades row.grade &&
    activeListOk filters.subjects row.subject &&
    activeListOk filters.genders row.studentgender &&
    activeListOk filters.ethnicities row.studentethnicgroup)

/-- The value `safeParseFloat(row.testritscore)` in `calculateDerivedValues`. -/
def cdTestRit (row : SRow) : Option ℚ := safeParseFloat row.testritscore

/-- The value of the observed-growth column under `safeParseFloat`. -/
def cdObservedGrowth (row : SRow) (growthPeriod : String) : Option ℚ :=
  safeParseFloat (row.observedgrowth growthPeriod)

/-- The value of the projected-growth column under `safeParseFloat`. -/
def cdProjectedGrowth (row : SRow) (growthPeriod : String) : Option ℚ :=
  safeParseFloat (row.projectedgrowth growthPeriod)

/-- The flag `hasGrowthData = observedGrowth !== null || projectedGrowth !== null`. -/
def cdHasGrowthData (row : SRow) (growthPeriod : String) : Bool :=
  (cdObservedGrowth row growthPeriod).isSome || (cdProjectedGrowth row growthPeriod).isSome

/-- The local `startRIT` of `calculateDerivedValues`:
`hasGrowthData && testritscore !== null && observedGrowth !== null
 ? testritscore - observedGrowth : null`. -/
def cdStartRIT (row : SRow) (growthPeriod : String) : Option ℚ :=
  match cdTestRit row, cdObservedGrowth row growthPeriod with
  | some r, some og => if cdHasGrowthData row growthPeriod then some (r - og) else none
  | _, _ => none

/-- The local `projectedRIT` of `calculateDerivedValues`:
`hasGrowthData && startRIT !== null && projectedGrowth !== null
 ? startRIT + projectedGrowth : null`. -/
def cdProjectedRIT (row : SRow) (growthPeriod : String) : Option ℚ :=
  match cdStartRIT row growthPeriod, cdProjectedGrowth row growthPeriod with
  | some s, some pg => if cdHasGrowthData row growthPeriod then some (s + pg) else none
  | _, _ => none

/-- JS `s[0] || ''`: the first character of a string, or the empty string. -/
def firstCharStr (s : String) : String :=
  match s.toList with
  | [] => ""
  | c :: _ => String.singleton c

/-- The record produced by `calculateDerivedValues` (the `...row` spread plus
the computed fields).  `startTermSE`, `startTermPercentile` and the percentile
bounds are set later by `processData`; `none` stands for an unset field or a
field set to `null` (the two are indistinguishable to every consumer, which
only uses falsy/`!= null` checks and `?? '—'` rendering). -/
structure ProcessedRow where
  row : SRow
  hasGrowthData : Bool
  fallRIT : Option ℤ
  winterRIT : Option ℤ
  winterPercentile : Option ℚ
  teststandarderror : ℚ
  projectedRIT : Option ℤ
  projectedGrowth : Option ℚ
  observedGrowth : Option ℚ
  growthSE : Option ℚ
  metProjectedGrowth : Option String
  conditionalGrowthIndex : Option ℚ
  conditionalGrowthPercentile : Option ℚ
  growthQuintile : Option String
  studentName : String
  studentNameShort : String
  startTermSE : Option ℚ := none
  startTermPercentile : Option ℚ := none
  startTermPercentileLow : Option ℕ := none
  startTermPercentileHigh : Option ℕ := none

/-- Function `calculateDerivedValues` from `dataTransforms.js` (current version):
all growth values via `safeParseFloat` (null, not 0, when absent), start/
projected RIT only when growth data exists, `Math.round` for display RITs. -/
def calculateDerivedValues (row : SRow) (growthPeriod : String) : ProcessedRow :=
  { row := row
    hasGrowthData := cdHasGrowthData row growthPeriod
    fallRIT := (cdStartRIT row growthPeriod).map mathRound
    winterRIT := (cdTestRit row).map mathRound
    winterPercentile := safeParseFloat row.testpercentile
    teststandarderror := (safeParseFloat row.teststandarderror).getD 0
    projectedRIT := (cdProjectedRIT row growthPeriod).map mathRound
    projectedGrowth := cdProjectedGrowth row growthPeriod
    observedGrowth := cdObservedGrowth row growthPeriod
    growthSE := safeParseFloat (row.observedgrowthse growthPeriod)
    metProjectedGrowth :=
      (if row.metprojectedgrowth growthPeriod = "" then none
       else some (row.metprojectedgrowth growthPeriod))
    conditionalGrowthIndex := safeParseFloat (row.conditionalgrowthindex growthPeriod)
    conditionalGrowthPercentile := safeParseFloat (row.conditionalgrowthpercentile growthPeriod)
    growthQuintile :=
      (if row.growthquintile growthPeriod = "" then none
       else some (row.growthquintile growthPeriod))
    studentName := row.studentlastname ++ ", " ++ row.studentfirstname
    studentNameShort := row.studentlastname ++ ", " ++ firstCharStr row.studentfirstname }

/-- A prior-term lookup entry (the fields `processData` reads from it). -/
structure PriorData where
  teststandarderror : JSVal
  testpercentile : JSVal

/-- Function `deriveStartGrade` from `dataTransforms.js`: students promote one grade
between start and end terms; grade `K` / `0` / non-numeric cannot go lower. -/
def deriveStartGrade (currentGrade : String) : String :=
  match parseInt currentGrade with
  | some num => if 0 < num then toString (num - 1) else currentGrade
  | none => currentGrade

/-- Table `SUBJECT_MAP` from `normsLookup.js`. -/
def SUBJECT_MAP (s : String) : Option String :=
  if s = "Mathematics" then some "Math"
  else if s = "Math K-12" then some "Math"
  else if s = "Math 6+" then some "Math"
  else if s = "Math" then some "Math"
  else if s = "Reading" then some "Read"
  else if s = "Language Usage" then some "Lang"
  else if s = "Language" then some "Lang"
  else if s = "Science - General Science" then some "Scie"
  else if s = "Science K-12" then some "Scie"
  else if s = "General Science" then some "Scie"
  else if s = "Science" then some "Scie"
  else none

/-- Table `SEASON_MAP` from `normsLookup.js`. -/
def SEASON_MAP (s : String) : Option String :=
  if s = "Fall" then some "Fal"
  else if s = "Winter" then some "Win"
  else if s = "Spring" then some "Spr"
  else none

/-- Function `buildKey` from `normsLookup.js`: `{subject}_{season}_G{grade}`;
unmapped subject or season yields `null`. -/
def buildKey (subject season grade : String) : Option String :=
  match SUBJECT_MAP subject, SEASON_MAP season with
  | some subjectCode, some seasonCode =>
      some (subjectCode ++ "_" ++ seasonCode ++ "_" ++
        ("G" ++ (if grade = "K" then "K" else grade)))
  | _, _ => none

/-- The `while (lo < hi)` binary-search loop of `lookupPercentile`, with
`mid = (lo + hi + 1) >> 1`.  The `fuel` argument keeps the recursion
structural; the range shrinks every iteration, so `fuel = 99` always
suffices for the initial range `[0, 98]`. -/
def bsearchLoop (arr : List ℤ) (n : ℤ) : ℕ → ℕ → ℕ → ℕ
  | 0, lo, _ => lo
  | fuel + 1, lo, hi =>
    if lo < hi then
      let mid := (lo + hi + 1) / 2
      if arr.getD mid 0 ≤ n then bsearchLoop arr n fuel mid hi
      else bsearchLoop arr n fuel lo (mid - 1)
    else lo

/-- The binary search of `lookupPercentile` over `[0, 98]` followed by the
nearest-neighbor adjustment: if the found entry is strictly below the rounded
RIT and the next entry is at least as close, advance by one (ties go up). -/
def lookupIndex (ritArray : List ℤ) (ritRounded : ℤ) : ℕ :=
  let lo := bsearchLoop ritArray ritRounded 99 0 98
  if lo < 98 ∧ ritArray.getD lo 0 < ritRounded then
    (if ritArray.getD (lo + 1) 0 - ritRounded ≤ ritRounded - ritArray.getD lo 0
     then lo + 1 else lo)
  else lo

/-- Function `lookupPercentile` from `normsLookup.js`.  The static `NORMS_2025` table
(a data file outside the core sources) is passed explicitly as `norms`,
following the design rule that the table is an immutable value handed to the
lookup.  Tables hold the 99 integer RIT thresholds; list access is `getD _ 0`,
which agrees with JS indexing for the well-formed 99-entry tables that the
theorems hypothesise. -/
def lookupPercentile (norms : String → Option (List ℤ))
    (subject season grade : String) (rit : ℚ) : Option ℕ :=
  match buildKey subject season grade with
  | none => none
  | some key =>
    match norms key with
    | none => none
    | some ritArray =>
      let ritRounded := mathRound rit
      if ritRounded ≤ ritArray.getD 0 0 then some 1
      else if ritArray.getD 98 0 ≤ ritRounded then some 99
      else some (lookupIndex ritArray ritRounded + 1)

/-- One row of `processData` from `dataTransforms.js` (current version):
derives `startTermSE` from the prior-term lookup, and the start-term
percentile either through the norms lookup (year-over-year periods) or from
the prior-term record (same-year periods), with the prior-term percentile as
fallback when the norms lookup misses. -/
def processRow (norms : String → Option (List ℤ)) (growthPeriod : String)
    (priorTermLookup : Option (String → Option PriorData)) (startSeason : String)
    (row : SRow) : ProcessedRow :=
  let processed0 := calculateDerivedValues row growthPeriod
  let processed :=
    match priorTermLookup with
    | some lookup =>
      if processed0.hasGrowthData then
        match lookup (dedupKey row) with
        | some priorData =>
            { processed0 with startTermSE := safeParseFloat priorData.teststandarderror }
        | none => processed0
      else processed0
    | none => processed0
  if (growthPeriod = "wintertowinter" ∨ growthPeriod = "falltofall" ∨
        growthPeriod = "springtospring") ∧
      processed.hasGrowthData = true ∧ processed.fallRIT.isSome = true ∧
      ¬startSeason = "" then
    let startRIT : ℚ := ((processed.fallRIT.getD 0 : ℤ) : ℚ)
    let startGrade := deriveStartGrade row.grade
    match lookupPercentile norms row.subject startSeason startGrade startRIT with
    | some normsPercentile =>
      let processed1 := { processed with startTermPercentile := some (normsPercentile : ℚ) }
      let se := processed1.startTermSE.getD 0
      if 0 < se then
        { processed1 with
          startTermPercentileLow :=
            lookupPercentile norms row.subject startSeason startGrade (startRIT - se)
          startTermPercentileHigh :=
            lookupPercentile norms row.subject startSeason startGrade (startRIT + se) }
      else processed1
    | none =>
      match priorTermLookup with
      | some lookup =>
        match lookup (dedupKey row) with
        | some priorData =>
            { processed with startTermPercentile := safeParseFloat priorData.testpercentile }
        | none => processed
      | none => processed
  else
    match priorTermLookup with
    | some lookup =>
      if processed.hasGrowthData then
        match lookup (dedupKey row) with
        | some priorData =>
            { processed with startTermPercentile := safeParseFloat priorData.testpercentile }
        | none => processed
      else processed
    | none => processed

/-- Function `processData`: the above per-row derivation mapped over the data. -/
def processData (norms : String → Option (List ℤ)) (data : List SRow)
    (growthPeriod : String) (priorTermLookup : Option (String → Option PriorData))
    (startSeason : String) : List ProcessedRow :=
  data.map (processRow norms growthPeriod priorTermLookup startSeason)

/-- Function `getChartEligibleStudents` from `dataTransforms.js`: records with both
axis values present. -/
def getChartEligibleStudents (data : List ProcessedRow) : List ProcessedRow :=
  data.filter (fun row =>
    row.winterPercentile.isSome && row.conditionalGrowthPercentile.isSome)

/-- The result of `parseTerm` from `termUtils.js`. -/
structure ParsedTerm where
  season : String
  startYear : ℤ
  endYear : ℤ
deriving DecidableEq

/-- Read exactly four decimal digits (the `\d{4}` groups of the term regex). -/
def read4Digits : List Char → Option (ℕ × List Char)
  | a :: b :: c :: d :: rest =>
    if a.isDigit && b.isDigit && c.isDigit && d.isDigit then
      some ((a.toNat - 48) * 1000 + (b.toNat - 48) * 100 +
            (c.toNat - 48) * 10 + (d.toNat - 48), rest)
    else none
  | _ => none

/-- Match `\s+(\d{4})-(\d{4})$` after the season word. -/
def matchTermTail (l : List Char) : Option (ℕ × ℕ) :=
  if (l.takeWhile (fun c => c.isWhitespace)).length = 0 then none
  else
    match read4Digits (l.dropWhile (fun c => c.isWhitespace)) with
    | some (y1, rest1) =>
      match rest1 with
      | '-' :: rest2 =>
        match read4Digits rest2 with
        | some (y2, []) => some (y1, y2)
        | _ => none
      | _ => none
    | none => none

/-- Function `parseTerm` from `termUtils.js`: match
`^(Fall|Winter|Spring)\s+(\d{4})-(\d{4})$` (with `\s` modelled by ASCII
whitespace, which covers every term name in the data); an unparseable input
yields `{season: '', startYear: 0, endYear: 0}`. -/
def parseTerm (termname : String) : ParsedTerm :=
  let l := termname.toList
  let seasonMatch : Option (String × List Char) :=
    if l.take 4 = "Fall".toList then some ("Fall", l.drop 4)
    else if l.take 6 = "Winter".toList then some ("Winter", l.drop 6)
    else if l.take 6 = "Spring".toList then some ("Spring", l.drop 6)
    else none
  match seasonMatch with
  | some (season, rest) =>
    match matchTermTail rest with
    | some (y1, y2) => ⟨season, (y1 : ℤ), (y2 : ℤ)⟩
    | none => ⟨"", 0, 0⟩
  | none => ⟨"", 0, 0⟩

/-- Function `getSeasonCode` from `termUtils.js`: `codes[season] ||
season.substring(0, 2).toUpperCase()`. -/
def getSeasonCode (season : String) : String :=
  if season = "Fall" then "FA"
  else if season = "Winter" then "WI"
  else if season = "Spring" then "SP"
  else (season.take 2).toUpper

/-- The term label set returned by `getTermLabels`. -/
structure TermLabelSet where
  startLabel : String
  endLabel : String
  startCode : String
  endCode : String
  startSeason : String
  endSeason : String
  startYear : ℤ
  endYear : ℤ
deriving DecidableEq

/-- The all-empty label set returned for unparseable input. -/
def emptyLabels : TermLabelSet := ⟨"", "", "", "", "", "", 0, 0⟩

/-- Function `getTermLabels` from `termUtils.js`: resolve (selected term, growth
period) to start/end season, year, label and short code; unparseable term
name or empty growth period yields `emptyLabels`. -/
def getTermLabels (termname growthPeriod : String) : TermLabelSet :=
  let p := parseTerm termname
  if p.season = "" ∨ growthPeriod = "" then emptyLabels
  else
    let r : String × ℤ × String × ℤ :=
      if growthPeriod = "falltowinter" then ("Fall", p.startYear, "Winter", p.endYear)
      else if growthPeriod = "falltospring" then ("Fall", p.startYear, "Spring", p.endYear)
      else if growthPeriod = "wintertospring" then ("Winter", p.endYear, "Spring", p.endYear)
      else if growthPeriod = "falltofall" then ("Fall", p.startYear - 1, "Fall", p.startYear)
      else if growthPeriod = "wintertowinter" then ("Winter", p.startYear, "Winter", p.endYear)
      else if growthPeriod = "springtospring" then ("Spring", p.startYear, "Spring", p.endYear)
      else (p.season, p.startYear, p.season,
            if p.season = "Fall" then p.startYear else p.endYear)
    { startLabel := r.1 ++ " " ++ toString r.2.1
      endLabel := r.2.2.1 ++ " " ++ toString r.2.2.2
      startCode := getSeasonCode r.1 ++ " " ++ toString r.2.1
      endCode := getSeasonCode r.2.2.1 ++ " " ++ toString r.2.2.2
      startSeason := r.1
      endSeason := r.2.2.1
      startYear := r.2.1
      endYear := r.2.2.2 }

/-- Function `formatRITRange` from `DataTable.jsx`: `(low, mid, high)` as displayed,
`none` when `rit == null` (rendered as an em-dash).  The source computes
`Math.round(rit - 2 * (se || 0))` and `Math.round(rit + 2 * (se || 0))`. -/
def formatRITRange (rit : Option ℚ) (se : Option ℚ) : Option (ℤ × ℤ × ℤ) :=
  match rit with
  | none => none
  | some r =>
    some (mathRound (r - 2 * jsOrDefault se 0), mathRound r,
          mathRound (r + 2 * jsOrDefault se 0))

/-- The "Growth Index" table cell of `DataTable.jsx`:
`student.conditionalGrowthIndex != null
 ? Math.round(student.conditionalGrowthIndex * 100) / 100 : '—'`. -/
def growthIndexCell (student : ProcessedRow) : Option ℚ :=
  student.conditionalGrowthIndex.map (fun x => ((mathRound (x * 100) : ℤ) : ℚ) / 100)

/-- The "Conditional Growth Index" table cell of `DataTable.jsx`:
`student.conditionalGrowthIndex?.toFixed(2) ?? '—'` — the raw value read
verbatim (rendering to two decimals). -/
def conditionalGrowthIndexCell (student : ProcessedRow) : Option ℚ :=
  student.conditionalGrowthIndex

/-- The four quadrants of `quadrantLogic.js`. -/
inductive Quadrant where
  | highHigh
  | lowHigh
  | lowLow
  | highLow
deriving DecidableEq

/-- Function `getQuadrant` from `quadrantLogic.js`: `highAchievement = x >= 50`,
`highGrowth = y >= 50`. -/
def getQuadrant (achievementPercentile growthPercentile : ℚ) : Quadrant :=
  if 50 ≤ achievementPercentile ∧ 50 ≤ growthPercentile then .highHigh
  else if ¬50 ≤ achievementPercentile ∧ 50 ≤ growthPercentile then .lowHigh
  else if ¬50 ≤ achievementPercentile ∧ ¬50 ≤ growthPercentile then .lowLow
  else .highLow

/-- The per-quadrant counters of `countByQuadrant`. -/
structure QuadrantCounts where
  highHigh : ℕ
  lowHigh : ℕ
  lowLow : ℕ
  highLow : ℕ
deriving DecidableEq

/-- The update `counts[quadrant]++`. -/
def bumpQuadrant (c : QuadrantCounts) : Quadrant → QuadrantCounts
  | .highHigh => { c with highHigh := c.highHigh + 1 }
  | .lowHigh => { c with lowHigh := c.lowHigh + 1 }
  | .lowLow => { c with lowLow := c.lowLow + 1 }
  | .highLow => { c with highLow := c.highLow + 1 }

/-- The loop body of `countByQuadrant`: count a record with both percentiles
non-null in its quadrant, skip every other record. -/
def countStep (counts : QuadrantCounts) (student : ProcessedRow) : QuadrantCounts :=
  match student.winterPercentile, student.conditionalGrowthPercentile with
  | some a, some g => bumpQuadrant counts (getQuadrant a g)
  | _, _ => counts

/-- Function `countByQuadrant` from `quadrantLogic.js`: count records with both
percentiles non-null in their quadrant, skipping all others. -/
def countByQuadrant (students : List ProcessedRow) : QuadrantCounts :=
  students.foldl countStep ⟨0, 0, 0, 0⟩

/-! ### Auxiliary predicates used in theorem statements -/

/-- Both chart percentiles present (the guard of `countByQuadrant`). -/
def hasBothPercentiles (s : ProcessedRow) : Bool :=
  s.winterPercentile.isSome && s.conditionalGrowthPercentile.isSome

/-- Record has both percentiles and falls in quadrant `q`. -/
def inQuadrant (q : Quadrant) (s : ProcessedRow) : Bool :=
  match s.winterPercentile, s.conditionalGrowthPercentile with
  | some a, some g => getQuadrant a g == q
  | _, _ => false

/-- The deduplication priority order, as a dominance relation: `dedupDom b r`
says `b` is at least as good as `r` under (effective SE asc, test date desc,
effective RIT desc). -/
def dedupDom (b r : SRow) : Prop :=
  effSE b < effSE r ∨
    (effSE b = effSE r ∧
      (r.teststartdate < b.teststartdate ∨
        (r.teststartdate = b.teststartdate ∧ effRIT r ≤ effRIT b)))

/-! ### Concrete rows and tables used by counterexamples and witnesses -/

/-- A blank roster row; concrete rows below override the relevant fields. -/
def blankRow : SRow where
  studentid := ""
  subject := ""
  course := ""
  grade := ""
  termname := ""
  schoolname := ""
  districtname := ""
  studentgender := ""
  studentethnicgroup := ""
  studentlastname := ""
  studentfirstname := ""
  teststartdate := ""
  testritscore := .vstr ""
  teststandarderror := .vstr ""
  testpercentile := .vstr ""
  growthmeasureyn := ""
  observedgrowth := fun _ => .vstr ""
  projectedgrowth := fun _ => .vstr ""
  observedgrowthse := fun _ => .vstr ""
  metprojectedgrowth := fun _ => ""
  conditionalgrowthindex := fun _ => .vstr ""
  conditionalgrowthpercentile := fun _ => .vstr ""
  growthquintile := fun _ => ""

/-- A 99-entry strictly ascending norms table: thresholds 100..198. -/
def normsTable99 : List ℤ := (List.range 99).map (fun i : ℕ => (100 : ℤ) + (i : ℤ))

/-- A concrete norms mapping holding `normsTable99` under `Math_Fal_G4`. -/
def testNorms (key : String) : Option (List ℤ) :=
  if key = "Math_Fal_G4" then some normsTable99 else none

/-- Test row: RIT 236, winter-to-winter observed growth absent,
fall-to-winter observed 4 / projected 1 (the worked example of the
repository's data-mapping document). -/
def c2row : SRow :=
  { blankRow with
    studentid := "001-0428"
    subject := "Reading"
    studentlastname := "Shinar"
    studentfirstname := "Edgar"
    teststartdate := "2026-02-02"
    testritscore := .vstr "236"
    teststandarderror := .vstr "3.35"
    testpercentile := .vstr "94"
    observedgrowth := fun p => if p = "falltowinter" then .vstr "4" else .vstr ""
    projectedgrowth := fun p => if p = "falltowinter" then .vstr "1" else .vstr "" }

/-- Test row for the growth-index display: winter-to-winter observed growth 6,
projected growth 7, conditional growth index −0.17 (the values of the
`Ajouz, Duke` row asserted by the repository's smoke test). -/
def c5row : SRow :=
  { blankRow with
    studentid := "001-0408"
    subject := "Math"
    observedgrowth := fun p => if p = "wintertowinter" then .vstr "6" else .vstr ""
    projectedgrowth := fun p => if p = "wintertowinter" then .vstr "7" else .vstr ""
    conditionalgrowthindex := fun p => if p = "wintertowinter" then .vstr "-0.17" else .vstr "" }

/-- Dedup counterexample row: standard error absent. -/
def c1rowAbsentSE : SRow :=
  { blankRow with
    studentid := "s1"
    subject := "Math"
    teststartdate := "2026-01-01"
    testritscore := .vstr "200"
    teststandarderror := .vstr "" }

/-- Dedup counterexample row: standard error present and very large (1000). -/
def c1rowLargeSE : SRow :=
  { blankRow with
    studentid := "s1"
    subject := "Math"
    teststartdate := "2026-01-02"
    testritscore := .vstr "210"
    teststandarderror := .vstr "1000" }

/-- Dedup witness rows: the spec's tie-break example, SE 3.26 on both,
dates 2026-01-28 and 2026-02-03. -/
def c1rowEarly : SRow :=
  { blankRow with
    studentid := "001-0571"
    subject := "Math"
    teststartdate := "2026-01-28"
    testritscore := .vstr "211"
    teststandarderror := .vstr "3.26" }

/-- See `c1rowEarly`. -/
def c1rowLate : SRow :=
  { blankRow with
    studentid := "001-0571"
    subject := "Math"
    teststartdate := "2026-02-03"
    testritscore := .vstr "206"
    teststandarderror := .vstr "3.26" }

/-- Flag-precedence witness rows: an unflagged row with a low SE... -/
def c8rowUnflagged : SRow :=
  { blankRow with
    studentid := "s2"
    subject := "Reading"
    teststandarderror := .vstr "1.5"
    growthmeasureyn := "" }

/-- Companion flagged row with a higher SE (see `c8rowUnflagged`). -/
def c8rowFlagged : SRow :=
  { blankRow with
    studentid := "s2"
    subject := "Reading"
    teststandarderror := .vstr "3.5"
    growthmeasureyn := "true" }

/-- Year-over-year percentile counterexample row: grade 5, Math, end RIT 200,
winter-to-winter observed growth 10 (so start RIT 190), prior-term record
present but with an absent standard error. -/
def c7row : SRow :=
  { blankRow with
    studentid := "s3"
    subject := "Math"
    grade := "5"
    testritscore := .vstr "200"
    observedgrowth := fun p => if p = "wintertowinter" then .vstr "10" else .vstr "" }

/-- Prior-term lookup for `c7row`: standard error absent, percentile 97. -/
def c7prior (key : String) : Option PriorData :=
  if key = "s3|Math" then some ⟨.vstr "", .vstr "97"⟩ else none

/-- Prior-term lookup with a present positive standard error, for the
amended-claim witness. -/
def c7priorWithSE (key : String) : Option PriorData :=
  if key = "s3|Math" then some ⟨.vstr "2", .vstr "97"⟩ else none

/-- Filter witness row. -/
def c4row : SRow := { blankRow with subject := "Math", studentgender := "F" }

/-! ### Theorems -/

/-! #### Shared evaluation lemmas -/

/-- Entry `i` of the concrete 99-entry table is `100 + i`. -/
theorem normsTable99_getElem (i : ℕ) (h : i < 99) :
    normsTable99[i]? = some (100 + (i : ℤ)) := by
  unfold normsTable99
  rw [List.getElem?_map, List.getElem?_range h]
  rfl

/-- Function `deriveStartGrade` takes grade 5 to grade 4. -/
theorem deriveStartGrade_five : deriveStartGrade "5" = "4" := by decide

/-- The concrete lookup at RIT 190 on `normsTable99` yields percentile 91. -/
theorem lookup_testNorms_at_190 :
    lookupPercentile testNorms "Math" "Fall" "4" ((190 : ℤ) : ℚ) = some 91 := by
  have hm : mathRound ((190 : ℤ) : ℚ) = 190 := by
    rw [mathRound, Int.floor_eq_iff] <;> norm_num
  have hm2 : mathRound ((190 : ℚ)) = 190 := by
    rw [mathRound, Int.floor_eq_iff] <;> norm_num
  simp +decide [lookupPercentile, lookupIndex, testNorms, buildKey, SUBJECT_MAP, SEASON_MAP,
    hm, hm2, bsearchLoop, normsTable99_getElem]

/-- Start RIT of the year-over-year counterexample row: 200 − 10 = 190. -/
theorem cdStartRIT_c7row : cdStartRIT c7row "wintertowinter" = some 190 := by
  simp +decide [cdStartRIT, cdTestRit, cdObservedGrowth, cdHasGrowthData, cdProjectedGrowth,
    c7row, blankRow, safeParseFloat, parseFloat, readDigits, readSign]
  norm_num

/-! #### Claim theorems -/

/-- Claim C2: the derivation engine's safe parse maps `""`, `null` and
`undefined` to `null` (never `0`) while a parsed `"0"` stays `0`; a record
whose observed growth for the selected period is null derives a null
start-term score (never the end-term RIT); when observed growth and RIT are
both present, `startTermScore = ritScore - observedGrowth`, and
`projectedScore = startTermScore + projectedGrowth` exactly when the projected
growth is also present, else null. -/
theorem c2_safe_parse_null_propagation :
    (safeParseFloat (JSVal.vstr "") = none ∧ safeParseFloat JSVal.vnull = none ∧
      safeParseFloat JSVal.vundefined = none ∧ safeParseFloat (JSVal.vstr "0") = some 0) ∧
    (∀ row growthPeriod, cdObservedGrowth row growthPeriod = none →
      cdStartRIT row growthPeriod = none ∧
        (calculateDerivedValues row growthPeriod).fallRIT = none) ∧
    (∀ row growthPeriod r og, cdTestRit row = some r →
      cdObservedGrowth row growthPeriod = some og →
      cdStartRIT row growthPeriod = some (r - og) ∧
        (cdProjectedGrowth row growthPeriod = none →
          cdProjectedRIT row growthPeriod = none) ∧
        (∀ pg, cdProjectedGrowth row growthPeriod = some pg →
          cdProjectedRIT row growthPeriod = some ((r - og) + pg))) := by
  refine ⟨⟨rfl, rfl, rfl, ?_⟩, ?_, ?_⟩
  · simp +decide [safeParseFloat, parseFloat, readDigits, readSign]
  · intro row growthPeriod h
    have hs : cdStartRIT row growthPeriod = none := by
      unfold cdStartRIT
      rw [h]
      cases cdTestRit row <;> rfl
    exact ⟨hs, by simp [calculateDerivedValues, hs]⟩
  · intro row growthPeriod r og hr hog
    have hgrow : cdHasGrowthData row growthPeriod = true := by
      simp [cdHasGrowthData, hog]
    have hs : cdStartRIT row growthPeriod = some (r - og) := by
      unfold cdStartRIT
      rw [hr, hog]
      simp [hgrow]
    refine ⟨hs, ?_, ?_⟩
    · intro hpg
      unfold cdProjectedRIT
      rw [hs, hpg]
    · intro pg hpg
      unfold cdProjectedRIT
      rw [hs, hpg]
      simp [hgrow]

/-- Witness for C2: the implication-free instance at the worked-example row
(RIT 236, fall-to-winter observed 4, projected 1; no winter-to-winter
growth data). -/
theorem c2_safe_parse_witness :
    cdStartRIT c2row "falltowinter" = some 232 ∧
    cdProjectedRIT c2row "falltowinter" = some 233 ∧
    cdStartRIT c2row "wintertowinter" = none := by
  have hr : cdTestRit c2row = some 236 := by
    simp +decide [cdTestRit, safeParseFloat, parseFloat, readDigits, readSign, c2row, blankRow]
  have hog : cdObservedGrowth c2row "falltowinter" = some 4 := by
    simp +decide [cdObservedGrowth, safeParseFloat, parseFloat, readDigits, readSign,
      c2row, blankRow]
  have hpg : cdProjectedGrowth c2row "falltowinter" = some 1 := by
    simp +decide [cdProjectedGrowth, safeParseFloat, parseFloat, readDigits, readSign,
      c2row, blankRow]
  have hogn : cdObservedGrowth c2row "wintertowinter" = none := by
    simp +decide [cdObservedGrowth, safeParseFloat, c2row, blankRow]
  refine ⟨?_, ?_, ?_⟩
  · rw [(c2_safe_parse_null_propagation.2.2 c2row "falltowinter" 236 4 hr hog).1]
    norm_num
  · rw [(c2_safe_parse_null_propagation.2.2 c2row "falltowinter" 236 4 hr hog).2.2 1 hpg]
    norm_num
  · exact (c2_safe_parse_null_propagation.2.1 c2row "wintertowinter" hogn).1

/-- Claim C3, code behavior at the claimed input: `formatRITRange` displays
`ritScore ± 2×standardError`, so RIT 243 with SE 3.26 renders 236-243-250,
not the 240-243-246 that `± 1×SE` (claimed by the spec and asserted by the
repository's smoke test) would give. -/
theorem c3_rit_range_code_behavior :
    formatRITRange (some 243) (some (163/50)) = some (236, 243, 250) ∧
    mathRound (243 - 163/50) = 240 ∧ mathRound (243 + 163/50) = 246 := by
  refine ⟨?_, ?_, ?_⟩
  · simp +decide [formatRITRange, mathRound, jsOrDefault]
    norm_num [Int.floor_eq_iff]
  · rw [mathRound, Int.floor_eq_iff] <;> norm_num
  · rw [mathRound, Int.floor_eq_iff] <;> norm_num

/-- Claim C5, code behavior at the claimed input: the "Growth Index" table
cell of `DataTable.jsx` reads `conditionalGrowthIndex` — on a record with
observed growth 6, projected growth 7 and CGI −0.17 it shows −0.17, not the
−1 (= observed − projected) required by the spec and by the repository's
smoke test; the cell coincides with the "Conditional Growth Index" cell. -/
theorem c5_growth_index_code_behavior :
    growthIndexCell (calculateDerivedValues c5row "wintertowinter") = some (-(17/100)) ∧
    (calculateDerivedValues c5row "wintertowinter").observedGrowth = some 6 ∧
    (calculateDerivedValues c5row "wintertowinter").projectedGrowth = some 7 ∧
    growthIndexCell (calculateDerivedValues c5row "wintertowinter") ≠ some (6 - 7 : ℚ) ∧
    growthIndexCell (calculateDerivedValues c5row "wintertowinter") =
      conditionalGrowthIndexCell (calculateDerivedValues c5row "wintertowinter") := by
  have hcgi : (calculateDerivedValues c5row "wintertowinter").conditionalGrowthIndex
      = some (-(17/100)) := by
    simp +decide [calculateDerivedValues, safeParseFloat, parseFloat, readDigits, readSign,
      c5row, blankRow]
    norm_num
  have hfl : mathRound ((-(17/100) : ℚ) * 100) = -17 := by
    have h0 : ((-(17/100) : ℚ) * 100) = -17 := by norm_num
    rw [mathRound, h0, Int.floor_eq_iff] <;> norm_num
  have hcell : growthIndexCell (calculateDerivedValues c5row "wintertowinter")
      = some (-(17/100)) := by
    simp only [growthIndexCell, hcgi, Option.map_some', hfl]
    norm_num
  refine ⟨hcell, ?_, ?_, ?_, ?_⟩
  · simp +decide [calculateDerivedValues, cdObservedGrowth, safeParseFloat, parseFloat,
      readDigits, readSign, c5row, blankRow]
  · simp +decide [calculateDerivedValues, cdProjectedGrowth, safeParseFloat, parseFloat,
      readDigits, readSign, c5row, blankRow]
  · rw [hcell]
    norm_num
  · rw [hcell, conditionalGrowthIndexCell, hcgi]

/-- Claim C7 counterexample: at a concrete record whose prior-term lookup entry
has an absent standard error, the year-over-year branch leaves the start-term
percentile bounds unset (`none`), instead of collapsing them to the single
value 91 as the claim ("defaulting to 0 ... which collapses the range to a
single value") requires. -/
theorem c7_absent_se_range_counterexample :
    (processRow testNorms "wintertowinter" (some c7prior) "Fall" c7row).startTermPercentile
        = some 91 ∧
    (processRow testNorms "wintertowinter" (some c7prior) "Fall" c7row).startTermPercentileLow
        = none ∧
    (processRow testNorms "wintertowinter" (some c7prior) "Fall" c7row).startTermPercentileHigh
        = none := by
  have hog : cdObservedGrowth c7row "wintertowinter" = some 10 := by
    simp +decide [cdObservedGrowth, c7row, blankRow, safeParseFloat, parseFloat,
      readDigits, readSign]
  have hpg : cdProjectedGrowth c7row "wintertowinter" = none := by
    simp +decide [cdProjectedGrowth, c7row, blankRow, safeParseFloat]
  have hm : mathRound (190 : ℚ) = 190 := by
    rw [mathRound, Int.floor_eq_iff] <;> norm_num
  have hsub : c7row.subject = "Math" := rfl
  have hgrade : c7row.grade = "5" := rfl
  have hkey : dedupKey c7row = "s3|Math" := rfl
  have hprior : c7prior "s3|Math" = some ⟨.vstr "", .vstr "97"⟩ := by
    simp [c7prior]
  have hsp : safeParseFloat (JSVal.vstr "") = none := rfl
  refine ⟨?_, ?_, ?_⟩ <;>
    simp +decide only [processRow, calculateDerivedValues, cdHasGrowthData, hog, hpg,
      cdStartRIT_c7row, hm, hsub, hgrade, hkey, hprior, hsp, deriveStartGrade_five,
      lookup_testNorms_at_190, Option.map_some', Option.getD_some, Option.isSome_some,
      Option.isSome_none, Bool.or_true, Bool.true_or, Option.map_none', Option.getD_none,
      if_true, if_false]

/-- Claim C4: for subjects (likewise genders, ethnicities), an array criterion
— including the empty array — makes the filter active, and the empty array
excludes every record; an absent criterion applies no filter; an empty grades
array, in contrast, applies no grade filter. -/
theorem c4_filter_empty_semantics :
    (∀ data, filterData data { subjects := some [] } = []) ∧
    (∀ data, filterData data {} = data) ∧
    (∀ data, filterData data { genders := some [] } = []) ∧
    (∀ data, filterData data { ethnicities := some [] } = []) ∧
    (∀ data, filterData data { grades := some [] } = data) ∧
    (∀ data l r, r ∈ filterData data { subjects := some l } →
      r ∈ data ∧ r.subject ∈ l) := by
  refine ⟨?_, ?_, ?_, ?_, ?_, ?_⟩
  · intro data
    simp [filterData, scalarOk, gradesOk, activeListOk]
  · intro data
    simp [filterData, scalarOk, gradesOk, activeListOk]
  · intro data
    simp [filterData, scalarOk, gradesOk, activeListOk]
  · intro data
    simp [filterData, scalarOk, gradesOk, activeListOk]
  · intro data
    simp [filterData, scalarOk, gradesOk, activeListOk]
  · intro data l r hr
    rw [filterData] at hr
    have h := List.mem_filter.mp hr
    refine ⟨h.1, ?_⟩
    have h2 := h.2
    simp only [Bool.and_eq_true] at h2
    have hs : activeListOk (some l) r.subject = true := h2.1.1.2
    simp only [activeListOk] at hs
    split at hs
    · exact absurd hs (by simp)
    · simpa using hs

/-- Witness for C4: at a concrete one-row data set, the active-subjects
membership conclusion holds. -/
theorem c4_filter_witness :
    c4row ∈ [c4row] ∧ c4row.subject ∈ ["Math"] :=
  c4_filter_empty_semantics.2.2.2.2.2 [c4row] ["Math"] c4row
    (by simp [filterData, scalarOk, gradesOk, activeListOk, c4row, blankRow])

/-- Claim C8: in a term where at least one record carries
`growthmeasureyn == "true"`, deduplication keeps exactly the flagged records:
every unflagged record is excluded (even one with a lower standard error),
and the rule is evaluated once per term, not per student. -/
theorem c8_flag_precedence (rows : List SRow)
    (hflag : ∃ r ∈ rows, r.growthmeasureyn = "true") :
    deduplicateTermData rows = rows.filter (fun r => r.growthmeasureyn == "true") ∧
    ∀ r ∈ rows, ¬r.growthmeasureyn = "true" → r ∉ deduplicateTermData rows := by
  have hany : rows.any (fun r => r.growthmeasureyn == "true") = true := by
    rcases hflag with ⟨r, hr, he⟩
    exact List.any_eq_true.mpr ⟨r, hr, by simp [he]⟩
  have heq : deduplicateTermData rows
      = rows.filter (fun r => r.growthmeasureyn == "true") := by
    rw [deduplicateTermData, if_pos hany]
  refine ⟨heq, ?_⟩
  intro r _ hne hmem
  rw [heq] at hmem
  have := (List.mem_filter.mp hmem).2
  simp at this
  exact hne this

/-- Witness for C8: with one flagged and one unflagged row (the unflagged one
having the lower SE), only the flagged row survives. -/
theorem c8_flag_precedence_witness :
    deduplicateTermData [c8rowUnflagged, c8rowFlagged]
      = [c8rowUnflagged, c8rowFlagged].filter (fun r => r.growthmeasureyn == "true") ∧
    c8rowUnflagged ∉ deduplicateTermData [c8rowUnflagged, c8rowFlagged] := by
  have h := c8_flag_precedence [c8rowUnflagged, c8rowFlagged]
    ⟨c8rowFlagged, by simp, rfl⟩
  exact ⟨h.1, h.2 c8rowUnflagged (by simp) (by simp [c8rowUnflagged, blankRow])⟩

/-- Running the counting fold from an arbitrary initial counter adds the
per-quadrant filtered lengths. -/
theorem countByQuadrant_foldl (l : List ProcessedRow) (init : QuadrantCounts) :
    (l.foldl countStep init).highHigh
        = init.highHigh + (l.filter (inQuadrant .highHigh)).length ∧
    (l.foldl countStep init).lowHigh
        = init.lowHigh + (l.filter (inQuadrant .lowHigh)).length ∧
    (l.foldl countStep init).lowLow
        = init.lowLow + (l.filter (inQuadrant .lowLow)).length ∧
    (l.foldl countStep init).highLow
        = init.highLow + (l.filter (inQuadrant .highLow)).length := by
  induction l generalizing init with
  | nil => simp
  | cons s t ih =>
    have hstep := ih (countStep init s)
    rcases hw : s.winterPercentile with _ | a <;>
      rcases hc : s.conditionalGrowthPercentile with _ | g
    · simp only [List.foldl_cons, List.filter_cons]
      simpa [countStep, inQuadrant, hw, hc] using hstep
    · simp only [List.foldl_cons, List.filter_cons]
      simpa [countStep, inQuadrant, hw, hc] using hstep
    · simp only [List.foldl_cons, List.filter_cons]
      simpa [countStep, inQuadrant, hw, hc] using hstep
    · rcases hq : getQuadrant a g <;>
      · simp only [List.foldl_cons, List.filter_cons]
        simp only [countStep, inQuadrant, hw, hc, hq] at hstep ⊢
        simp [bumpQuadrant] at hstep ⊢
        omega

/-- Each record with both percentiles lies in exactly one quadrant. -/
theorem quadrant_partition (l : List ProcessedRow) :
    (l.filter (inQuadrant .highHigh)).length + (l.filter (inQuadrant .lowHigh)).length +
      (l.filter (inQuadrant .lowLow)).length + (l.filter (inQuadrant .highLow)).length
    = (l.filter hasBothPercentiles).length := by
  induction l with
  | nil => simp
  | cons s t ih =>
    rcases hw : s.winterPercentile with _ | a <;>
      rcases hc : s.conditionalGrowthPercentile with _ | g
    · simp only [List.filter_cons]
      simpa [inQuadrant, hasBothPercentiles, hw, hc] using ih
    · simp only [List.filter_cons]
      simpa [inQuadrant, hasBothPercentiles, hw, hc] using ih
    · simp only [List.filter_cons]
      simpa [inQuadrant, hasBothPercentiles, hw, hc] using ih
    · rcases hq : getQuadrant a g <;>
      · simp only [List.filter_cons]
        simp only [inQuadrant, hasBothPercentiles, hw, hc, hq]
        simp
        omega

/-- Claim C10: `getQuadrant` classifies the achievement axis High exactly when
the percentile is ≥ 50 and the growth axis High exactly when the growth
percentile is ≥ 50 (so exactly 50 lands High); `countByQuadrant` counts every
record with both percentiles present in exactly one quadrant and skips every
record with either percentile null. -/
theorem c10_quadrant_boundaries :
    (∀ a g : ℚ,
      ((getQuadrant a g = .highHigh ∨ getQuadrant a g = .highLow) ↔ 50 ≤ a) ∧
      ((getQuadrant a g = .highHigh ∨ getQuadrant a g = .lowHigh) ↔ 50 ≤ g)) ∧
    getQuadrant 50 50 = .highHigh ∧
    (∀ students : List ProcessedRow,
      (countByQuadrant students).highHigh
          = (students.filter (inQuadrant .highHigh)).length ∧
      (countByQuadrant students).lowHigh
          = (students.filter (inQuadrant .lowHigh)).length ∧
      (countByQuadrant students).lowLow
          = (students.filter (inQuadrant .lowLow)).length ∧
      (countByQuadrant students).highLow
          = (students.filter (inQuadrant .highLow)).length ∧
      (countByQuadrant students).highHigh + (countByQuadrant students).lowHigh +
          (countByQuadrant students).lowLow + (countByQuadrant students).highLow
        = (students.filter hasBothPercentiles).length) := by
  refine ⟨?_, ?_, ?_⟩
  · intro a g
    constructor
    · unfold getQuadrant
      split_ifs <;> simp_all <;> tauto
    · unfold getQuadrant
      split_ifs <;> simp_all <;> tauto
  · unfold getQuadrant
    norm_num
  · intro students
    obtain ⟨h1, h2, h3, h4⟩ := countByQuadrant_foldl students ⟨0, 0, 0, 0⟩
    simp only [Nat.zero_add] at h1 h2 h3 h4
    have hsum := quadrant_partition students
    refine ⟨?_, ?_, ?_, ?_, ?_⟩ <;> rw [countByQuadrant] <;> omega

/-- Claim C6: `getTermLabels` reproduces the resolution table exactly for every
parseable term name and each of the six growth periods (fall-to-fall uses
start year `startYear − 1` and end year `startYear`), and yields the
all-empty label set for every unparseable term name. -/
theorem c6_term_resolution (t : String) (s : String) (y1 y2 : ℤ)
    (hp : parseTerm t = ⟨s, y1, y2⟩) :
    (s ≠ "" →
      getTermLabels t "falltowinter" =
        ⟨"Fall " ++ toString y1, "Winter " ++ toString y2,
         "FA " ++ toString y1, "WI " ++ toString y2, "Fall", "Winter", y1, y2⟩ ∧
      getTermLabels t "falltospring" =
        ⟨"Fall " ++ toString y1, "Spring " ++ toString y2,
         "FA " ++ toString y1, "SP " ++ toString y2, "Fall", "Spring", y1, y2⟩ ∧
      getTermLabels t "wintertospring" =
        ⟨"Winter " ++ toString y2, "Spring " ++ toString y2,
         "WI " ++ toString y2, "SP " ++ toString y2, "Winter", "Spring", y2, y2⟩ ∧
      getTermLabels t "falltofall" =
        ⟨"Fall " ++ toString (y1 - 1), "Fall " ++ toString y1,
         "FA " ++ toString (y1 - 1), "FA " ++ toString y1, "Fall", "Fall", y1 - 1, y1⟩ ∧
      getTermLabels t "wintertowinter" =
        ⟨"Winter " ++ toString y1, "Winter " ++ toString y2,
         "WI " ++ toString y1, "WI " ++ toString y2, "Winter", "Winter", y1, y2⟩ ∧
      getTermLabels t "springtospring" =
        ⟨"Spring " ++ toString y1, "Spring " ++ toString y2,
         "SP " ++ toString y1, "SP " ++ toString y2, "Spring", "Spring", y1, y2⟩) ∧
    (s = "" → ∀ growthPeriod, getTermLabels t growthPeriod = emptyLabels) := by
  constructor
  · intro hne
    refine ⟨?_, ?_, ?_, ?_, ?_, ?_⟩ <;>
      simp +decide [getTermLabels, hp, hne, getSeasonCode]
  · intro hs growthPeriod
    subst hs
    by_cases hgp : growthPeriod = ""
    · simp [getTermLabels, hp, hgp]
    · simp [getTermLabels, hp, hgp]

/-- Witness for C6: the spec's concrete examples at "Winter 2025-2026", plus
an unparseable term name. -/
theorem c6_term_resolution_witness :
    (getTermLabels "Winter 2025-2026" "falltowinter").startLabel = "Fall 2025" ∧
    (getTermLabels "Winter 2025-2026" "falltowinter").endLabel = "Winter 2026" ∧
    (getTermLabels "Winter 2025-2026" "falltowinter").endCode = "WI 2026" ∧
    (getTermLabels "Winter 2025-2026" "wintertowinter").startLabel = "Winter 2025" ∧
    (getTermLabels "Winter 2025-2026" "wintertowinter").endLabel = "Winter 2026" ∧
    getTermLabels "Winter 205-2026" "falltowinter" = emptyLabels := by
  have h := c6_term_resolution "Winter 2025-2026" "Winter" 2025 2026 (by decide)
  have h1 := (h.1 (by decide)).1
  have h2 := (h.1 (by decide)).2.2.2.2.1
  have h3 := (c6_term_resolution "Winter 205-2026" "" 0 0 (by decide)).2 rfl "falltowinter"
  rw [h1, h2, h3]
  refine ⟨by decide, by decide, by decide, by decide, by decide, rfl⟩

/-! #### Deduplication-priority lemmas -/

/-- Step `dedupStep` always returns one of its two arguments. -/
theorem dedupStep_cases (b c : SRow) : dedupStep b c = b ∨ dedupStep b c = c := by
  unfold dedupStep
  split_ifs <;> simp

/-- The dedup dominance relation is reflexive. -/
theorem dedupDom_refl (r : SRow) : dedupDom r r :=
  Or.inr ⟨rfl, Or.inr ⟨rfl, le_refl _⟩⟩

/-- The dedup dominance relation is transitive. -/
theorem dedupDom_trans {a b c : SRow} (h1 : dedupDom a b) (h2 : dedupDom b c) :
    dedupDom a c := by
  unfold dedupDom at h1 h2 ⊢
  rcases h1 with h1 | ⟨he1, h1⟩
  · rcases h2 with h2 | ⟨he2, _⟩
    · exact Or.inl (lt_trans h1 h2)
    · exact Or.inl (he2 ▸ h1)
  · rcases h2 with h2 | ⟨he2, h2⟩
    · exact Or.inl (he1 ▸ h2)
    · refine Or.inr ⟨he1.trans he2, ?_⟩
      rcases h1 with h1 | ⟨hd1, h1⟩
      · rcases h2 with h2 | ⟨hd2, _⟩
        · exact Or.inl (lt_trans h2 h1)
        · exact Or.inl (hd2 ▸ h1)
      · rcases h2 with h2 | ⟨hd2, h2⟩
        · exact Or.inl (hd1 ▸ h2)
        · exact Or.inr ⟨hd2.trans hd1, le_trans h2 h1⟩

/-- The record kept by `dedupStep` dominates the previous best. -/
theorem dedupStep_dom_left (b c : SRow) : dedupDom (dedupStep b c) b := by
  unfold dedupStep
  split_ifs with h1 h2 h3 h4 h5
  · exact Or.inl h1
  · exact dedupDom_refl b
  · exact Or.inr ⟨le_antisymm (not_lt.mp h2) (not_lt.mp h1), Or.inl h3⟩
  · exact dedupDom_refl b
  · exact Or.inr ⟨le_antisymm (not_lt.mp h2) (not_lt.mp h1),
      Or.inr ⟨le_antisymm (not_lt.mp h4) (not_lt.mp h3), le_of_lt h5⟩⟩
  · exact dedupDom_refl b

/-- The record kept by `dedupStep` dominates the current record. -/
theorem dedupStep_dom_right (b c : SRow) : dedupDom (dedupStep b c) c := by
  unfold dedupStep
  split_ifs with h1 h2 h3 h4 h5
  · exact dedupDom_refl c
  · exact Or.inl h2
  · exact dedupDom_refl c
  · exact Or.inr ⟨le_antisymm (not_lt.mp h1) (not_lt.mp h2), Or.inl h4⟩
  · exact dedupDom_refl c
  · exact Or.inr ⟨le_antisymm (not_lt.mp h1) (not_lt.mp h2),
      Or.inr ⟨le_antisymm (not_lt.mp h3) (not_lt.mp h4), not_lt.mp h5⟩⟩

/-- The fold of `dedupStep` returns a member of the scanned records. -/
theorem foldl_dedupStep_mem (l : List SRow) (b : SRow) :
    l.foldl dedupStep b = b ∨ l.foldl dedupStep b ∈ l := by
  induction l generalizing b with
  | nil => exact Or.inl rfl
  | cons c t ih =>
    rw [List.foldl_cons]
    rcases ih (dedupStep b c) with h | h
    · rcases dedupStep_cases b c with hb | hc
      · exact Or.inl (h.trans hb)
      · exact Or.inr (by rw [h, hc]; exact List.mem_cons_self c t)
    · exact Or.inr (List.mem_cons_of_mem _ h)

/-- The fold of `dedupStep` dominates its start value and every scanned
record. -/
theorem foldl_dedupStep_dom (l : List SRow) (b : SRow) :
    dedupDom (l.foldl dedupStep b) b ∧ ∀ r ∈ l, dedupDom (l.foldl dedupStep b) r := by
  induction l generalizing b with
  | nil => exact ⟨dedupDom_refl b, by simp⟩
  | cons c t ih =>
    obtain ⟨hd, hall⟩ := ih (dedupStep b c)
    rw [List.foldl_cons]
    refine ⟨dedupDom_trans hd (dedupStep_dom_left b c), ?_⟩
    intro r hr
    rcases List.mem_cons.mp hr with rfl | hrt
    · exact dedupDom_trans hd (dedupStep_dom_right b r)
    · exact hall r hrt

/-- The selected record of a group belongs to the group and dominates all of
its members. -/
theorem pickBest_spec {g : List SRow} {b : SRow} (h : pickBest g = some b) :
    b ∈ g ∧ ∀ r ∈ g, dedupDom b r := by
  cases g with
  | nil => cases h
  | cons h0 t =>
    have hb : b = t.foldl dedupStep h0 := by
      simpa [pickBest] using h.symm
    subst hb
    obtain ⟨hd, hall⟩ := foldl_dedupStep_dom t h0
    constructor
    · rcases foldl_dedupStep_mem t h0 with h | h
      · rw [h]; exact List.mem_cons_self h0 t
      · exact List.mem_cons_of_mem _ h
    · intro r hr
      rcases List.mem_cons.mp hr with rfl | hrt
      · exact hd
      · exact hall r hrt

/-- Members of a group produced by `groupByKeyAux` come from the input and
share the group key. -/
theorem groupByKeyAux_sub (f : SRow → String) :
    ∀ (fuel : ℕ) (rows : List SRow) (kg : String × List SRow),
      kg ∈ groupByKeyAux f fuel rows → ∀ r ∈ kg.2, r ∈ rows ∧ f r = kg.1 := by
  intro fuel
  induction fuel with
  | zero =>
    intro rows kg h
    simp [groupByKeyAux] at h
  | succ n ih =>
    intro rows kg h
    cases rows with
    | nil => simp [groupByKeyAux] at h
    | cons r0 rest =>
      simp only [groupByKeyAux, List.mem_cons] at h
      rcases h with rfl | h2
      · intro r hr
        rcases List.mem_cons.mp hr with rfl | hrf
        · exact ⟨List.mem_cons_self r rest, rfl⟩
        · have hm := List.mem_filter.mp hrf
          exact ⟨List.mem_cons_of_mem _ hm.1, by simpa using hm.2⟩
      · intro r hr
        obtain ⟨hmem, hkey⟩ := ih _ kg h2 r hr
        have hm := List.mem_filter.mp hmem
        exact ⟨List.mem_cons_of_mem _ hm.1, hkey⟩

/-- Every input record lands in some group. -/
theorem groupByKeyAux_covers (f : SRow → String) :
    ∀ (fuel : ℕ) (rows : List SRow), rows.length ≤ fuel →
      ∀ r ∈ rows, ∃ kg ∈ groupByKeyAux f fuel rows, r ∈ kg.2 := by
  intro fuel
  induction fuel with
  | zero =>
    intro rows hlen r hr
    rw [List.length_eq_zero.mp (Nat.le_zero.mp hlen)] at hr
    cases hr
  | succ n ih =>
    intro rows hlen r hr
    cases rows with
    | nil => cases hr
    | cons r0 rest =>
      by_cases hk : f r = f r0
      · refine ⟨(f r0, r0 :: rest.filter fun x => f x == f r0), ?_, ?_⟩
        · simp [groupByKeyAux]
        · rcases List.mem_cons.mp hr with rfl | hrt
          · exact List.mem_cons_self r _
          · exact List.mem_cons_of_mem _ (List.mem_filter.mpr ⟨hrt, by simp [hk]⟩)
      · have hrt : r ∈ rest := by
          rcases List.mem_cons.mp hr with rfl | h
          · exact absurd rfl hk
          · exact h
        have hrf : r ∈ rest.filter fun x => !(f x == f r0) :=
          List.mem_filter.mpr ⟨hrt, by simp [hk]⟩
        have hlen2 : (rest.filter fun x => !(f x == f r0)).length ≤ n :=
          le_trans (List.length_filter_le _ _)
            (Nat.lt_succ_iff.mp (lt_of_lt_of_le (Nat.lt_succ_of_le (le_refl _))
              (by simpa using hlen)))
        obtain ⟨kg, hkg, hrkg⟩ := ih _ hlen2 r hrf
        refine ⟨kg, ?_, hrkg⟩
        simp only [groupByKeyAux, List.mem_cons]
        exact Or.inr hkg

/-- Every group key is the key of some input record. -/
theorem groupByKeyAux_key_mem (f : SRow → String) :
    ∀ (fuel : ℕ) (rows : List SRow) (kg : String × List SRow),
      kg ∈ groupByKeyAux f fuel rows → ∃ r ∈ rows, f r = kg.1 := by
  intro fuel
  induction fuel with
  | zero =>
    intro rows kg h
    simp [groupByKeyAux] at h
  | succ n ih =>
    intro rows kg h
    cases rows with
    | nil => simp [groupByKeyAux] at h
    | cons r0 rest =>
      simp only [groupByKeyAux, List.mem_cons] at h
      rcases h with rfl | h2
      · exact ⟨r0, List.mem_cons_self r0 rest, rfl⟩
      · obtain ⟨r, hr, hk⟩ := ih _ kg h2
        exact ⟨r, List.mem_cons_of_mem _ (List.mem_filter.mp hr).1, hk⟩

/-- A group contains every input record carrying its key. -/
theorem groupByKeyAux_complete (f : SRow → String) :
    ∀ (fuel : ℕ) (rows : List SRow), rows.length ≤ fuel →
      ∀ kg ∈ groupByKeyAux f fuel rows, ∀ r ∈ rows, f r = kg.1 → r ∈ kg.2 := by
  intro fuel
  induction fuel with
  | zero =>
    intro rows _ kg h
    simp [groupByKeyAux] at h
  | succ n ih =>
    intro rows hlen kg hkg r hr hk
    cases rows with
    | nil => cases hr
    | cons r0 rest =>
      simp only [groupByKeyAux, List.mem_cons] at hkg
      rcases hkg with rfl | h2
      · rcases List.mem_cons.mp hr with rfl | hrt
        · exact List.mem_cons_self r _
        · exact List.mem_cons_of_mem _ (List.mem_filter.mpr ⟨hrt, by simp [hk]⟩)
      · have hne : kg.1 ≠ f r0 := by
          obtain ⟨r2, hr2, hk2⟩ := groupByKeyAux_key_mem f n _ kg h2
          have := (List.mem_filter.mp hr2).2
          simp at this
          exact hk2 ▸ this
        have hrt : r ∈ rest := by
          rcases List.mem_cons.mp hr with rfl | h
          · exact absurd hk.symm hne
          · exact h
        have hlen2 : (rest.filter fun x => !(f x == f r0)).length ≤ n :=
          le_trans (List.length_filter_le _ _) (by simpa using hlen)
        exact ih _ hlen2 kg h2 r (List.mem_filter.mpr ⟨hrt, by simp [hk, hne]⟩) hk

/-- Distinct groups carry distinct keys. -/
theorem groupByKeyAux_keys_pairwise (f : SRow → String) :
    ∀ (fuel : ℕ) (rows : List SRow),
      (groupByKeyAux f fuel rows).Pairwise (fun a b => a.1 ≠ b.1) := by
  intro fuel
  induction fuel with
  | zero => intro rows; simp [groupByKeyAux]
  | succ n ih =>
    intro rows
    cases rows with
    | nil => simp [groupByKeyAux]
    | cons r0 rest =>
      rw [groupByKeyAux]
      refine List.Pairwise.cons ?_ (ih _)
      intro kg hkg
      obtain ⟨r, hr, hk⟩ := groupByKeyAux_key_mem f n _ kg hkg
      have := (List.mem_filter.mp hr).2
      simp at this
      simp only [ne_eq]
      exact fun h => (hk ▸ this) h.symm

/-- Among pairwise key-distinct groups, equal keys force equal groups. -/
theorem pairwise_key_unique {L : List (String × List SRow)}
    (hp : L.Pairwise (fun a b => a.1 ≠ b.1)) :
    ∀ kg1 ∈ L, ∀ kg2 ∈ L, kg1.1 = kg2.1 → kg1 = kg2 := by
  induction L with
  | nil => intro kg1 h; cases h
  | cons a t ih =>
    obtain ⟨ha, ht⟩ := List.pairwise_cons.mp hp
    intro kg1 h1 kg2 h2 hk
    rcases List.mem_cons.mp h1 with rfl | h1t
    · rcases List.mem_cons.mp h2 with rfl | h2t
      · rfl
      · exact absurd hk (ha kg2 h2t)
    · rcases List.mem_cons.mp h2 with rfl | h2t
      · exact absurd hk.symm (ha kg1 h1t)
      · exact ih ht kg1 h1t kg2 h2t hk

/-- Unpacking the dominance relation into the three priority statements. -/
theorem dedupDom_unpack {b r : SRow} (h : dedupDom b r) :
    effSE b ≤ effSE r ∧
    (effSE r = effSE b → r.teststartdate ≤ b.teststartdate) ∧
    (effSE r = effSE b → r.teststartdate = b.teststartdate → effRIT r ≤ effRIT b) := by
  rcases h with h | ⟨he, hd⟩
  · refine ⟨le_of_lt h, ?_, ?_⟩
    · intro heq
      exact absurd (heq ▸ h) (lt_irrefl _)
    · intro heq _
      exact absurd (heq ▸ h) (lt_irrefl _)
  · refine ⟨le_of_eq he, ?_, ?_⟩
    · intro _
      rcases hd with hd | ⟨hdeq, _⟩
      · exact le_of_lt hd
      · exact le_of_eq hdeq
    · intro _ hdate
      rcases hd with hd | ⟨_, hrit⟩
      · exact absurd (hdate ▸ hd) (lt_irrefl _)
      · exact hrit

/-- Claim C1 counterexample: a record with an absent standard error is selected
over a same-group record with the present standard error 1000, because
`parseFloat(se) || 999` maps an absent SE to the finite sentinel 999 — the
claim's "absent SE compares as worse than any record with a present SE value"
fails. -/
theorem c1_absent_se_counterexample :
    parseFloatV c1rowAbsentSE.teststandarderror = none ∧
    parseFloatV c1rowLargeSE.teststandarderror = some 1000 ∧
    dedupKey c1rowAbsentSE = dedupKey c1rowLargeSE ∧
    deduplicateTermData [c1rowAbsentSE, c1rowLargeSE] = [c1rowAbsentSE] := by
  have hpA : parseFloatV c1rowAbsentSE.teststandarderror = none := by
    simp +decide [parseFloatV, parseFloat, c1rowAbsentSE, blankRow]
  have hpL : parseFloatV c1rowLargeSE.teststandarderror = some 1000 := by
    simp +decide [parseFloatV, parseFloat, readDigits, readSign, c1rowLargeSE, blankRow]
  have hseA : effSE c1rowAbsentSE = 999 := by
    rw [effSE, hpA]; rfl
  have hseL : effSE c1rowLargeSE = 1000 := by
    rw [effSE, hpL, jsOrDefault]
    norm_num
  have hstep : dedupStep c1rowAbsentSE c1rowLargeSE = c1rowAbsentSE := by
    unfold dedupStep
    rw [hseA, hseL, if_neg (by norm_num), if_pos (by norm_num)]
  have hKA : dedupKey c1rowAbsentSE = "s1|Math" := rfl
  have hKL : dedupKey c1rowLargeSE = "s1|Math" := rfl
  refine ⟨hpA, hpL, rfl, ?_⟩
  rw [deduplicateTermData,
    if_neg (by simp [c1rowAbsentSE, c1rowLargeSE, blankRow])]
  have hgroups : groupByKey dedupKey [c1rowAbsentSE, c1rowLargeSE]
      = [("s1|Math", [c1rowAbsentSE, c1rowLargeSE])] := by
    simp +decide [groupByKey, groupByKeyAux, hKA, hKL]
  rw [hgroups]
  simp only [List.filterMap, pickBest, List.foldl_cons, List.foldl_nil, hstep]

/-- Claim C1 (amended): for a term with no flagged record, deduplication keeps
one record per `studentid|subject` group, chosen by priority on the effective
SE (`parseFloat(se) || 999`, so absent, unparseable, and zero SE all read as
999 — never as 0), then most recent test date (string comparison), then
highest RIT (`parseFloat || 0`); an absent SE therefore sorts as worse than
any present SE below 999, but not above. -/
theorem c1_dedup_priority_amended (rows : List SRow)
    (hflag : ∀ r ∈ rows, ¬r.growthmeasureyn = "true") :
    (∀ r : SRow, effSE r ≠ 0 ∧ (parseFloatV r.teststandarderror = none → effSE r = 999)) ∧
    (∀ b ∈ deduplicateTermData rows, b ∈ rows) ∧
    (∀ r ∈ rows, ∃ b ∈ deduplicateTermData rows, dedupKey b = dedupKey r) ∧
    (∀ b1 ∈ deduplicateTermData rows, ∀ b2 ∈ deduplicateTermData rows,
      dedupKey b1 = dedupKey b2 → b1 = b2) ∧
    (∀ b ∈ deduplicateTermData rows, ∀ r ∈ rows, dedupKey r = dedupKey b →
      effSE b ≤ effSE r ∧
      (effSE r = effSE b → r.teststartdate ≤ b.teststartdate) ∧
      (effSE r = effSE b → r.teststartdate = b.teststartdate →
        effRIT r ≤ effRIT b)) := by
  have hanyf : rows.any (fun r => r.growthmeasureyn == "true") = false := by
    rw [List.any_eq_false]
    intro r hr
    simpa using hflag r hr
  have hded : deduplicateTermData rows
      = (groupByKey dedupKey rows).filterMap (fun kg => pickBest kg.2) := by
    rw [deduplicateTermData, if_neg (by simp [hanyf])]
  refine ⟨?_, ?_, ?_, ?_, ?_⟩
  · intro r
    constructor
    · rcases hp : parseFloatV r.teststandarderror with _ | x
      · simp [effSE, jsOrDefault, hp]
      · by_cases hx : x = 0
        · simp [effSE, jsOrDefault, hp, hx]
        · simp [effSE, jsOrDefault, hp, hx]
    · intro h
      rw [effSE, h]
      rfl
  · intro b hb
    rw [hded] at hb
    obtain ⟨kg, hkg, hpick⟩ := List.mem_filterMap.mp hb
    exact (groupByKeyAux_sub dedupKey _ _ kg hkg b (pickBest_spec hpick).1).1
  · intro r hr
    obtain ⟨kg, hkg, hrkg⟩ :=
      groupByKeyAux_covers dedupKey rows.length rows (le_refl _) r hr
    rcases hgg : kg.2 with _ | ⟨h0, t⟩
    · rw [hgg] at hrkg
      cases hrkg
    · refine ⟨t.foldl dedupStep h0, ?_, ?_⟩
      · rw [hded]
        exact List.mem_filterMap.mpr ⟨kg, hkg, by rw [hgg]; rfl⟩
      · have hbmem : t.foldl dedupStep h0 ∈ kg.2 := by
          rw [hgg]
          rcases foldl_dedupStep_mem t h0 with h | h
          · rw [h]; exact List.mem_cons_self h0 t
          · exact List.mem_cons_of_mem _ h
        have h1 := (groupByKeyAux_sub dedupKey _ _ kg hkg _ hbmem).2
        have h2 := (groupByKeyAux_sub dedupKey _ _ kg hkg r hrkg).2
        rw [h1, h2]
  · intro b1 hb1 b2 hb2 hk
    rw [hded] at hb1 hb2
    obtain ⟨kg1, hkg1, hpick1⟩ := List.mem_filterMap.mp hb1
    obtain ⟨kg2, hkg2, hpick2⟩ := List.mem_filterMap.mp hb2
    have hk1 : dedupKey b1 = kg1.1 :=
      (groupByKeyAux_sub dedupKey _ _ kg1 hkg1 b1 (pickBest_spec hpick1).1).2
    have hk2 : dedupKey b2 = kg2.1 :=
      (groupByKeyAux_sub dedupKey _ _ kg2 hkg2 b2 (pickBest_spec hpick2).1).2
    have hkgeq : kg1 = kg2 :=
      pairwise_key_unique (groupByKeyAux_keys_pairwise dedupKey rows.length rows)
        kg1 hkg1 kg2 hkg2 (by rw [← hk1, ← hk2, hk])
    rw [hkgeq] at hpick1
    rw [hpick1] at hpick2
    exact Option.some.inj hpick2
  · intro b hb r hr hk
    rw [hded] at hb
    obtain ⟨kg, hkg, hpick⟩ := List.mem_filterMap.mp hb
    have hbk : dedupKey b = kg.1 :=
      (groupByKeyAux_sub dedupKey _ _ kg hkg b (pickBest_spec hpick).1).2
    have hrin : r ∈ kg.2 :=
      groupByKeyAux_complete dedupKey rows.length rows (le_refl _) kg hkg r hr
        (hk.trans hbk)
    exact dedupDom_unpack ((pickBest_spec hpick).2 r hrin)

/-- Witness for C1: the spec's tie-break example — two records with equal SE
3.26 and dates 2026-01-28 / 2026-02-03; the amended theorem applies, and the
2026-02-03 record is the survivor. -/
theorem c1_dedup_priority_witness :
    (∀ b ∈ deduplicateTermData [c1rowEarly, c1rowLate], b ∈ [c1rowEarly, c1rowLate]) ∧
    (∃ b ∈ deduplicateTermData [c1rowEarly, c1rowLate],
      dedupKey b = dedupKey c1rowEarly) ∧
    deduplicateTermData [c1rowEarly, c1rowLate] = [c1rowLate] := by
  have h := c1_dedup_priority_amended [c1rowEarly, c1rowLate]
    (by simp [c1rowEarly, c1rowLate, blankRow])
  refine ⟨h.2.1, h.2.2.1 c1rowEarly (by simp), ?_⟩
  have hseE : effSE c1rowEarly = 163/50 := by
    simp +decide [effSE, jsOrDefault, parseFloatV, parseFloat, readDigits, readSign,
      c1rowEarly, blankRow]
    norm_num
  have hseL : effSE c1rowLate = 163/50 := by
    simp +decide [effSE, jsOrDefault, parseFloatV, parseFloat, readDigits, readSign,
      c1rowLate, blankRow]
    norm_num
  have hdate : c1rowEarly.teststartdate < c1rowLate.teststartdate := by
    have h0 : ("2026-01-28" : String) < "2026-02-03" := by
      rw [String.lt_iff_toList_lt]
      decide
    exact h0
  have hstep : dedupStep c1rowEarly c1rowLate = c1rowLate := by
    unfold dedupStep
    rw [hseE, hseL, if_neg (by norm_num), if_neg (by norm_num), if_pos hdate]
  have hKE : dedupKey c1rowEarly = "001-0571|Math" := rfl
  have hKL : dedupKey c1rowLate = "001-0571|Math" := rfl
  rw [deduplicateTermData, if_neg (by simp [c1rowEarly, c1rowLate, blankRow])]
  have hgroups : groupByKey dedupKey [c1rowEarly, c1rowLate]
      = [("001-0571|Math", [c1rowEarly, c1rowLate])] := by
    simp +decide [groupByKey, groupByKeyAux, hKE, hKL]
  rw [hgroups]
  simp only [List.filterMap, pickBest, List.foldl_cons, List.foldl_nil, hstep]

/-! #### `processRow` field lemmas and the C7 claim -/

/-- Field `startTermSE` is never set by `calculateDerivedValues`. -/
theorem cdv_startTermSE (row : SRow) (p : String) :
    (calculateDerivedValues row p).startTermSE = none := by
  simp [calculateDerivedValues]

/-- Field `startTermPercentile` is never set by `calculateDerivedValues`. -/
theorem cdv_startTermPercentile (row : SRow) (p : String) :
    (calculateDerivedValues row p).startTermPercentile = none := by
  simp [calculateDerivedValues]

/-- Field `startTermPercentileLow` is never set by `calculateDerivedValues`. -/
theorem cdv_startTermPercentileLow (row : SRow) (p : String) :
    (calculateDerivedValues row p).startTermPercentileLow = none := by
  simp [calculateDerivedValues]

/-- Field `startTermPercentileHigh` is never set by `calculateDerivedValues`. -/
theorem cdv_startTermPercentileHigh (row : SRow) (p : String) :
    (calculateDerivedValues row p).startTermPercentileHigh = none := by
  simp [calculateDerivedValues]

/-- The counterexample row has winter-to-winter growth data. -/
theorem cdv_c7row_hasGrowthData :
    (calculateDerivedValues c7row "wintertowinter").hasGrowthData = true := by
  simp +decide [calculateDerivedValues, cdHasGrowthData, cdObservedGrowth, cdProjectedGrowth,
    c7row, blankRow, safeParseFloat, parseFloat, readDigits, readSign]

/-- The counterexample row's displayed start RIT is 190. -/
theorem cdv_c7row_fallRIT :
    (calculateDerivedValues c7row "wintertowinter").fallRIT = some 190 := by
  have hm : mathRound (190 : ℚ) = 190 := by
    rw [mathRound, Int.floor_eq_iff]
    norm_num
  simp [calculateDerivedValues, cdStartRIT_c7row, hm]

/-- Claim C7 (amended): under a year-over-year growth period with growth data and
a present start RIT, the start grade is `currentGrade − 1` (grade K / PK
unchanged), the start-term percentile comes from the norms lookup at
(subject, startSeason, startGrade, rounded start RIT); when the lookup
returns a value, the low/high bounds are computed at that RIT ∓ the
prior-term SE only when that SE is present and positive, and are left unset
otherwise (not collapsed to the centre value); when the lookup misses, the
prior-term percentile is the fallback. -/
theorem c7_start_percentile_amended
    (norms : String → Option (List ℤ)) (growthPeriod : String)
    (plk : String → Option PriorData) (startSeason : String) (row : SRow) (fr : ℤ)
    (hyoy : growthPeriod = "wintertowinter" ∨ growthPeriod = "falltofall" ∨
      growthPeriod = "springtospring")
    (hgrow : (calculateDerivedValues row growthPeriod).hasGrowthData = true)
    (hfall : (calculateDerivedValues row growthPeriod).fallRIT = some fr)
    (hss : ¬startSeason = "") :
    ((∀ n : ℕ, n < 13 → 1 ≤ n → deriveStartGrade (toString n) = toString (n - 1)) ∧
      deriveStartGrade "K" = "K" ∧ deriveStartGrade "PK" = "PK") ∧
    (∀ np, lookupPercentile norms row.subject startSeason (deriveStartGrade row.grade)
        ((fr : ℤ) : ℚ) = some np →
      (processRow norms growthPeriod (some plk) startSeason row).startTermPercentile
          = some (np : ℚ) ∧
      (0 < (match plk (dedupKey row) with
            | some pd => safeParseFloat pd.teststandarderror
            | none => none).getD 0 →
        (processRow norms growthPeriod (some plk) startSeason row).startTermPercentileLow
          = lookupPercentile norms row.subject startSeason (deriveStartGrade row.grade)
              (((fr : ℤ) : ℚ) - (match plk (dedupKey row) with
                 | some pd => safeParseFloat pd.teststandarderror
                 | none => none).getD 0) ∧
        (processRow norms growthPeriod (some plk) startSeason row).startTermPercentileHigh
          = lookupPercentile norms row.subject startSeason (deriveStartGrade row.grade)
              (((fr : ℤ) : ℚ) + (match plk (dedupKey row) with
                 | some pd => safeParseFloat pd.teststandarderror
                 | none => none).getD 0)) ∧
      (¬0 < (match plk (dedupKey row) with
             | some pd => safeParseFloat pd.teststandarderror
             | none => none).getD 0 →
        (processRow norms growthPeriod (some plk) startSeason row).startTermPercentileLow
            = none ∧
        (processRow norms growthPeriod (some plk) startSeason row).startTermPercentileHigh
            = none)) ∧
    (lookupPercentile norms row.subject startSeason (deriveStartGrade row.grade)
        ((fr : ℤ) : ℚ) = none →
      (processRow norms growthPeriod (some plk) startSeason row).startTermPercentile
        = (match plk (dedupKey row) with
           | some pd => safeParseFloat pd.testpercentile
           | none => none)) := by
  refine ⟨⟨by decide, by decide, by decide⟩, ?_, ?_⟩
  · intro np hnp
    rcases hplk : plk (dedupKey row) with _ | pd
    · simp only [processRow, hplk, hgrow, hfall, hyoy, hss, Option.getD_some,
        Option.isSome_some, hnp, cdv_startTermSE, cdv_startTermPercentileLow,
        cdv_startTermPercentileHigh, Option.getD_none, lt_self_iff_false, if_false,
        eq_self_iff_true, true_and, and_true, not_false_iff, if_true]
      constructor <;> intro h <;> simp_all
    · by_cases hse : 0 < (safeParseFloat pd.teststandarderror).getD 0
      · simp only [processRow, hplk, hgrow, hfall, hyoy, hss, Option.getD_some,
          Option.isSome_some, hnp, if_pos hse, eq_self_iff_true, true_and, and_true,
          not_false_iff, if_true]
        constructor <;> intro h <;> simp_all
      · simp only [processRow, hplk, hgrow, hfall, hyoy, hss, Option.getD_some,
          Option.isSome_some, hnp, if_neg hse, cdv_startTermPercentileLow,
          cdv_startTermPercentileHigh, eq_self_iff_true, true_and, and_true,
          not_false_iff, if_true]
        constructor <;> intro h <;> simp_all
  · intro hnone
    rcases hplk : plk (dedupKey row) with _ | pd
    · simp only [processRow, hplk, hgrow, hfall, hyoy, hss, Option.getD_some, hnone,
        Option.isSome_some, cdv_startTermPercentile, eq_self_iff_true, true_and,
        and_true, not_false_iff, if_true]
    · simp only [processRow, hplk, hgrow, hfall, hyoy, hss, Option.getD_some, hnone,
        Option.isSome_some, eq_self_iff_true, true_and, and_true, not_false_iff,
        if_true]

/-- Witness for C7: the amended theorem applied at the concrete row with a
present prior-term SE of 2: the centre percentile is 91 and the bounds come
from lookups at 190 ∓ 2. -/
theorem c7_start_percentile_witness :
    (processRow testNorms "wintertowinter" (some c7priorWithSE) "Fall" c7row).startTermPercentile
        = some ((91 : ℕ) : ℚ) ∧
    (processRow testNorms "wintertowinter" (some c7priorWithSE) "Fall" c7row).startTermPercentileLow
      = lookupPercentile testNorms c7row.subject "Fall" (deriveStartGrade c7row.grade)
          (((190 : ℤ) : ℚ) - (match c7priorWithSE (dedupKey c7row) with
             | some pd => safeParseFloat pd.teststandarderror
             | none => none).getD 0) ∧
    (processRow testNorms "wintertowinter" (some c7priorWithSE) "Fall" c7row).startTermPercentileHigh
      = lookupPercentile testNorms c7row.subject "Fall" (deriveStartGrade c7row.grade)
          (((190 : ℤ) : ℚ) + (match c7priorWithSE (dedupKey c7row) with
             | some pd => safeParseFloat pd.teststandarderror
             | none => none).getD 0) := by
  have hse : 0 < (match c7priorWithSE (dedupKey c7row) with
      | some pd => safeParseFloat pd.teststandarderror
      | none => none).getD 0 := by
    have hk : dedupKey c7row = "s3|Math" := rfl
    have hp : c7priorWithSE "s3|Math" = some ⟨.vstr "2", .vstr "97"⟩ := by
      simp [c7priorWithSE]
    rw [hk, hp]
    simp +decide [safeParseFloat, parseFloat, readDigits, readSign]
  have hlook : lookupPercentile testNorms c7row.subject "Fall" (deriveStartGrade c7row.grade)
      ((190 : ℤ) : ℚ) = some 91 := by
    have h1 : c7row.subject = "Math" := rfl
    have h2 : deriveStartGrade c7row.grade = "4" := by
      rw [show c7row.grade = "5" from rfl]
      exact deriveStartGrade_five
    rw [h1, h2]
    exact lookup_testNorms_at_190
  have h := c7_start_percentile_amended testNorms "wintertowinter" c7priorWithSE "Fall"
    c7row 190 (Or.inl rfl) cdv_c7row_hasGrowthData cdv_c7row_fallRIT (by decide)
  have h2 := h.2.1 91 hlook
  exact ⟨h2.1, (h2.2.1 hse).1, (h2.2.1 hse).2⟩


/-! #### Norms-lookup lemmas and the C9 claim -/

/-- The binary-search loop result stays within the initial range. -/
theorem bsearchLoop_range (arr : List ℤ) (n : ℤ) :
    ∀ (fuel lo hi : ℕ), lo ≤ hi →
      lo ≤ bsearchLoop arr n fuel lo hi ∧ bsearchLoop arr n fuel lo hi ≤ hi := by
  intro fuel
  induction fuel with
  | zero =>
    intro lo hi h
    exact ⟨le_refl lo, h⟩
  | succ m ih =>
    intro lo hi h
    simp only [bsearchLoop]
    by_cases hlt : lo < hi
    · rw [if_pos hlt]
      have h1 : lo + 1 ≤ (lo + hi + 1) / 2 := by omega
      have h2 : (lo + hi + 1) / 2 ≤ hi := by omega
      by_cases hc : arr.getD ((lo + hi + 1) / 2) 0 ≤ n
      · rw [if_pos hc]
        obtain ⟨a, b⟩ := ih ((lo + hi + 1) / 2) hi h2
        exact ⟨le_trans (by omega) a, b⟩
      · rw [if_neg hc]
        obtain ⟨a, b⟩ := ih lo ((lo + hi + 1) / 2 - 1) (by omega)
        exact ⟨a, by omega⟩
    · rw [if_neg hlt]
      exact ⟨le_refl lo, h⟩

/-- When started at an entry below the target, the loop keeps the found
entry at or below the target. -/
theorem bsearchLoop_le (arr : List ℤ) (n : ℤ) :
    ∀ (fuel lo hi : ℕ), lo ≤ hi → hi - lo ≤ fuel → arr.getD lo 0 ≤ n →
      arr.getD (bsearchLoop arr n fuel lo hi) 0 ≤ n := by
  intro fuel
  induction fuel with
  | zero =>
    intro lo hi h hf hlo
    have : lo = hi := by omega
    subst this
    exact hlo
  | succ m ih =>
    intro lo hi h hf hlo
    simp only [bsearchLoop]
    by_cases hlt : lo < hi
    · rw [if_pos hlt]
      have h1 : lo + 1 ≤ (lo + hi + 1) / 2 := by omega
      have h2 : (lo + hi + 1) / 2 ≤ hi := by omega
      by_cases hc : arr.getD ((lo + hi + 1) / 2) 0 ≤ n
      · rw [if_pos hc]
        exact ih _ hi h2 (by omega) hc
      · rw [if_neg hc]
        exact ih lo _ (by omega) (by omega) hlo
    · rw [if_neg hlt]
      exact hlo

/-- On a sorted table, every in-range index whose entry is at or below the
target lies at or below the loop's result. -/
theorem bsearchLoop_max (arr : List ℤ) (n : ℤ)
    (hmono : ∀ i j, i ≤ j → j < arr.length → arr.getD i 0 ≤ arr.getD j 0) :
    ∀ (fuel lo hi : ℕ), lo ≤ hi → hi - lo ≤ fuel → hi < arr.length →
      ∀ j, j ≤ hi → arr.getD j 0 ≤ n → j ≤ bsearchLoop arr n fuel lo hi := by
  intro fuel
  induction fuel with
  | zero =>
    intro lo hi h hf _ j hj _
    have : lo = hi := by omega
    subst this
    simpa [bsearchLoop] using hj
  | succ m ih =>
    intro lo hi h hf hhi j hj hacc
    simp only [bsearchLoop]
    by_cases hlt : lo < hi
    · rw [if_pos hlt]
      have h1 : lo + 1 ≤ (lo + hi + 1) / 2 := by omega
      have h2 : (lo + hi + 1) / 2 ≤ hi := by omega
      by_cases hc : arr.getD ((lo + hi + 1) / 2) 0 ≤ n
      · rw [if_pos hc]
        by_cases hjm : j < (lo + hi + 1) / 2
        · have := (bsearchLoop_range arr n m ((lo + hi + 1) / 2) hi h2).1
          omega
        · exact ih _ hi h2 (by omega) hhi j hj hacc
      · rw [if_neg hc]
        have hjm : j ≤ (lo + hi + 1) / 2 - 1 := by
          by_contra hcon
          push_neg at hcon
          have hmj : (lo + hi + 1) / 2 ≤ j := by omega
          have := hmono ((lo + hi + 1) / 2) j hmj (lt_of_le_of_lt hj hhi)
          exact hc (le_trans this hacc)
        exact ih lo _ (by omega) (by omega) (by omega) j hjm hacc
    · rw [if_neg hlt]
      omega


/-- Rounding with `Math.round` is monotone. -/
theorem mathRound_mono {a b : ℚ} (h : a ≤ b) : mathRound a ≤ mathRound b :=
  Int.floor_le_floor (by linarith)

/-- Rounding an integer with `Math.round` gives that integer. -/
theorem mathRound_intCast (z : ℤ) : mathRound ((z : ℤ) : ℚ) = z := by
  rw [mathRound, Int.floor_eq_iff]
  constructor
  · push_cast
    linarith
  · push_cast
    linarith

/-- A chain-sorted table is monotone under `getD` access. -/
theorem chain'_getD_mono (arr : List ℤ) (h : List.Chain' (· ≤ ·) arr) :
    ∀ i j, i ≤ j → j < arr.length → arr.getD i 0 ≤ arr.getD j 0 := by
  intro i j hij hj
  rcases eq_or_lt_of_le hij with rfl | hlt
  · exact le_refl _
  · have hp := List.chain'_iff_pairwise.mp h
    have hg := List.pairwise_iff_get.mp hp ⟨i, lt_trans hlt hj⟩ ⟨j, hj⟩ hlt
    rw [List.getD_eq_getElem _ _ (lt_trans hlt hj), List.getD_eq_getElem _ _ hj]
    simpa using hg

/-- In the interior of the table, `lookupIndex` finds the greatest index
whose entry is at or below the rounded RIT and applies the nearest-neighbor
adjustment to it. -/
theorem lookupIndex_spec (arr : List ℤ) (n : ℤ)
    (hmono : ∀ i j, i ≤ j → j < arr.length → arr.getD i 0 ≤ arr.getD j 0)
    (hlen : arr.length = 99)
    (hlo : arr.getD 0 0 < n) (hhi : n < arr.getD 98 0) :
    ∃ i, i < 98 ∧ arr.getD i 0 ≤ n ∧ (∀ j, j ≤ 98 → arr.getD j 0 ≤ n → j ≤ i) ∧
      lookupIndex arr n =
        (if arr.getD i 0 < n ∧ arr.getD (i + 1) 0 - n ≤ n - arr.getD i 0
         then i + 1 else i) := by
  have hrange := bsearchLoop_range arr n 99 0 98 (by omega)
  have hle := bsearchLoop_le arr n 99 0 98 (by omega) (by omega) (le_of_lt hlo)
  have hmax := bsearchLoop_max arr n hmono 99 0 98 (by omega) (by omega) (by omega)
  set R := bsearchLoop arr n 99 0 98 with hR
  have hR98 : R < 98 := by
    rcases eq_or_lt_of_le hrange.2 with he | h
    · rw [he] at hle
      omega
    · exact h
  refine ⟨R, hR98, hle, fun j hj hacc => hmax j hj hacc, ?_⟩
  rw [lookupIndex]
  by_cases hlt : arr.getD R 0 < n
  · rw [if_pos ⟨hR98, hlt⟩]
    by_cases hdist : arr.getD (R + 1) 0 - n ≤ n - arr.getD R 0
    · rw [if_pos hdist, if_pos ⟨hlt, hdist⟩]
    · rw [if_neg hdist, if_neg (fun hcon => hdist hcon.2)]
  · rw [if_neg (fun hcon => hlt hcon.2), if_neg (fun hcon => hlt hcon.1)]

/-- In the interior of the table, `lookupIndex` stays at or below 98. -/
theorem lookupIndex_le (arr : List ℤ) (n : ℤ)
    (hmono : ∀ i j, i ≤ j → j < arr.length → arr.getD i 0 ≤ arr.getD j 0)
    (hlen : arr.length = 99)
    (hlo : arr.getD 0 0 < n) (hhi : n < arr.getD 98 0) :
    lookupIndex arr n ≤ 98 := by
  obtain ⟨i, hi, _, _, he⟩ := lookupIndex_spec arr n hmono hlen hlo hhi
  rw [he]
  split_ifs <;> omega

/-- Index search `lookupIndex` is monotone in the rounded RIT inside the table span. -/
theorem lookupIndex_mono (arr : List ℤ)
    (hmono : ∀ i j, i ≤ j → j < arr.length → arr.getD i 0 ≤ arr.getD j 0)
    (hlen : arr.length = 99) {n1 n2 : ℤ} (h12 : n1 ≤ n2)
    (hlo1 : arr.getD 0 0 < n1) (hhi1 : n1 < arr.getD 98 0)
    (hlo2 : arr.getD 0 0 < n2) (hhi2 : n2 < arr.getD 98 0) :
    lookupIndex arr n1 ≤ lookupIndex arr n2 := by
  obtain ⟨i1, hi1lt, hi1le, _, he1⟩ := lookupIndex_spec arr n1 hmono hlen hlo1 hhi1
  obtain ⟨i2, hi2lt, _, hi2max, he2⟩ := lookupIndex_spec arr n2 hmono hlen hlo2 hhi2
  have hi12 : i1 ≤ i2 := hi2max i1 (by omega) (le_trans hi1le h12)
  rw [he1, he2]
  rcases eq_or_lt_of_le hi12 with rfl | hlt
  · by_cases hadv1 : arr.getD i1 0 < n1 ∧ arr.getD (i1 + 1) 0 - n1 ≤ n1 - arr.getD i1 0
    · have hadv2 : arr.getD i1 0 < n2 ∧ arr.getD (i1 + 1) 0 - n2 ≤ n2 - arr.getD i1 0 :=
        ⟨lt_of_lt_of_le hadv1.1 h12, by linarith [hadv1.2]⟩
      rw [if_pos hadv1, if_pos hadv2]
    · rw [if_neg hadv1]
      split_ifs <;> omega
  · split_ifs <;> omega


/-- Claim C9: with a mapped key and a present, sorted 99-entry table whose ends
differ, `lookupPercentile` always returns a percentile in 1..99; it is
non-decreasing in the RIT; it clamps to 1 at or below the first entry and to
99 at or above the last; in between it returns `i + 1` for the highest index
`i` with `table[i] ≤ round(rit)`, advanced by one when the entry is strictly
below the rounded RIT and the next entry is at least as close (ties round
up); and it returns `null` exactly for an unmapped subject/season or a
missing table. -/
theorem c9_lookup_percentile_properties
    (norms : String → Option (List ℤ)) (subject season grade : String)
    (k : String) (arr : List ℤ)
    (hkey : buildKey subject season grade = some k)
    (hnorm : norms k = some arr)
    (hlen : arr.length = 99)
    (hsort : List.Chain' (· ≤ ·) arr)
    (hspan : arr.getD 0 0 < arr.getD 98 0) :
    (∀ rit : ℚ, ∃ p, lookupPercentile norms subject season grade rit = some p ∧
      1 ≤ p ∧ p ≤ 99) ∧
    (∀ r1 r2 : ℚ, ∀ p1 p2 : ℕ, r1 ≤ r2 →
      lookupPercentile norms subject season grade r1 = some p1 →
      lookupPercentile norms subject season grade r2 = some p2 → p1 ≤ p2) ∧
    (∀ rit : ℚ, rit ≤ ((arr.getD 0 0 : ℤ) : ℚ) →
      lookupPercentile norms subject season grade rit = some 1) ∧
    (∀ rit : ℚ, ((arr.getD 98 0 : ℤ) : ℚ) ≤ rit →
      lookupPercentile norms subject season grade rit = some 99) ∧
    (∀ rit : ℚ, arr.getD 0 0 < mathRound rit → mathRound rit < arr.getD 98 0 →
      ∃ i, i < 98 ∧ arr.getD i 0 ≤ mathRound rit ∧
        (∀ j, j ≤ 98 → arr.getD j 0 ≤ mathRound rit → j ≤ i) ∧
        lookupPercentile norms subject season grade rit =
          some ((if arr.getD i 0 < mathRound rit ∧
                   arr.getD (i + 1) 0 - mathRound rit ≤ mathRound rit - arr.getD i 0
                 then i + 1 else i) + 1)) ∧
    (∀ subject2 season2 grade2 rit, buildKey subject2 season2 grade2 = none →
      lookupPercentile norms subject2 season2 grade2 rit = none) ∧
    (∀ subject2 season2 grade2 k2 rit, buildKey subject2 season2 grade2 = some k2 →
      norms k2 = none → lookupPercentile norms subject2 season2 grade2 rit = none) := by
  have hmono := chain'_getD_mono arr hsort
  have hval : ∀ rit : ℚ, lookupPercentile norms subject season grade rit
      = (if mathRound rit ≤ arr.getD 0 0 then some 1
         else if arr.getD 98 0 ≤ mathRound rit then some 99
         else some (lookupIndex arr (mathRound rit) + 1)) := by
    intro rit
    simp only [lookupPercentile, hkey, hnorm]
  have hbounds : ∀ (rit : ℚ) (p : ℕ),
      lookupPercentile norms subject season grade rit = some p → 1 ≤ p ∧ p ≤ 99 := by
    intro rit p hp
    rw [hval] at hp
    split_ifs at hp with h1 h2
    · have := Option.some.inj hp
      omega
    · have := Option.some.inj hp
      omega
    · have := Option.some.inj hp
      have hle := lookupIndex_le arr (mathRound rit) hmono hlen (not_le.mp h1) (not_le.mp h2)
      omega
  refine ⟨?_, ?_, ?_, ?_, ?_, ?_, ?_⟩
  · intro rit
    rw [hval]
    split_ifs with h1 h2
    · exact ⟨1, rfl, le_refl 1, by norm_num⟩
    · exact ⟨99, rfl, by norm_num, le_refl 99⟩
    · refine ⟨lookupIndex arr (mathRound rit) + 1, rfl, by omega, ?_⟩
      have := lookupIndex_le arr (mathRound rit) hmono hlen (not_le.mp h1) (not_le.mp h2)
      omega
  · intro r1 r2 p1 p2 h12 hp1 hp2
    have hn12 : mathRound r1 ≤ mathRound r2 := mathRound_mono h12
    rw [hval] at hp1 hp2
    by_cases c1 : mathRound r1 ≤ arr.getD 0 0
    · rw [if_pos c1] at hp1
      have h1 := Option.some.inj hp1
      have hb := hbounds r2 p2 (by rw [hval]; exact hp2)
      omega
    · rw [if_neg c1] at hp1
      by_cases c2 : arr.getD 98 0 ≤ mathRound r1
      · rw [if_pos c2] at hp1
        have h1 := Option.some.inj hp1
        have hc2b : arr.getD 98 0 ≤ mathRound r2 := le_trans c2 hn12
        have hc1b : ¬mathRound r2 ≤ arr.getD 0 0 := by omega
        rw [if_neg hc1b, if_pos hc2b] at hp2
        have h2 := Option.some.inj hp2
        omega
      · rw [if_neg c2] at hp1
        have hv1 := Option.some.inj hp1
        by_cases c2b : arr.getD 98 0 ≤ mathRound r2
        · have hc1b : ¬mathRound r2 ≤ arr.getD 0 0 := by
            have := not_le.mp c1
            omega
          rw [if_neg hc1b, if_pos c2b] at hp2
          have h2 := Option.some.inj hp2
          have hb1 := hbounds r1 p1 (by rw [hval, if_neg c1, if_neg c2]; exact hp1)
          omega
        · have hc1b : ¬mathRound r2 ≤ arr.getD 0 0 := by
            have := not_le.mp c1
            omega
          rw [if_neg hc1b, if_neg c2b] at hp2
          have hv2 := Option.some.inj hp2
          have hmid := lookupIndex_mono arr hmono hlen hn12 (not_le.mp c1) (not_le.mp c2)
            (by have := not_le.mp c1; omega) (not_le.mp c2b)
          omega
  · intro rit hr
    rw [hval]
    have hle : mathRound rit ≤ arr.getD 0 0 := by
      have := mathRound_mono hr
      rwa [mathRound_intCast] at this
    rw [if_pos hle]
  · intro rit hr
    rw [hval]
    have h9 : arr.getD 98 0 ≤ mathRound rit := by
      have := mathRound_mono hr
      rwa [mathRound_intCast] at this
    have h0 : ¬mathRound rit ≤ arr.getD 0 0 := by omega
    rw [if_neg h0, if_pos h9]
  · intro rit h1 h2
    obtain ⟨i, hilt, hile, himax, he⟩ :=
      lookupIndex_spec arr (mathRound rit) hmono hlen h1 h2
    refine ⟨i, hilt, hile, himax, ?_⟩
    rw [hval, if_neg (by omega), if_neg (by omega), he]
  · intro s2 se2 g2 rit hb
    simp [lookupPercentile, hb]
  · intro s2 se2 g2 k2 rit hb hn
    simp [lookupPercentile, hb, hn]



/-- The concrete table is sorted. -/
theorem normsTable99_sorted : List.Chain' (· ≤ ·) normsTable99 := by
  rw [List.chain'_iff_pairwise]
  unfold normsTable99
  refine List.Pairwise.map _ ?_ (List.pairwise_lt_range 99)
  intro a b hab
  have hc : (a : ℤ) ≤ b := by exact_mod_cast le_of_lt hab
  linarith

/-- Witness for C9: the concrete table 100..198 — interior value at RIT
190.5, clamp to 1 at 99, clamp to 99 at 500. -/
theorem c9_lookup_percentile_witness :
    (∃ p, lookupPercentile testNorms "Math" "Fall" "4" (381/2 : ℚ) = some p ∧
      1 ≤ p ∧ p ≤ 99) ∧
    lookupPercentile testNorms "Math" "Fall" "4" 99 = some 1 ∧
    lookupPercentile testNorms "Math" "Fall" "4" 500 = some 99 := by
  have hg0 : normsTable99.getD 0 0 = 100 := by
    rw [List.getD_eq_getElem?_getD, normsTable99_getElem 0 (by norm_num)]
    norm_num
  have hg98 : normsTable99.getD 98 0 = 198 := by
    rw [List.getD_eq_getElem?_getD, normsTable99_getElem 98 (by norm_num)]
    norm_num
  have h := c9_lookup_percentile_properties testNorms "Math" "Fall" "4" "Math_Fal_G4"
    normsTable99 (by decide) (by simp [testNorms]) (by simp [normsTable99])
    normsTable99_sorted (by rw [hg0, hg98]; norm_num)
  refine ⟨h.1 (381/2), ?_, ?_⟩
  · exact h.2.2.1 99 (by rw [hg0]; norm_num)
  · exact h.2.2.2.1 500 (by rw [hg98]; norm_num)

end MapQuadrants
